import Mathlib

/-! Mahjong game client: retry wrapper, connection registry, chat history

A shallow embedding of parts of the browser client
(`src/frontend/src/api/room.js`, `src/frontend/src/api/chat.js`,
`src/frontend/src/stores/chat.js`, `src/frontend/src/stores/room.js`,
`src/frontend/src/api/game.js`, `src/frontend/src/stores/game.js`) together
with theorems about them.

Conventions of the embedding
* An asynchronous JavaScript call is a state-passing function on a world `σ`
  that returns `Except error value` (rejected / resolved promise).
* JavaScript numbers that the code only uses as counts or milliseconds are
  natural numbers; HTTP status codes and business codes are integers.
* A JavaScript string is a Lean `String`; `String.length` of JavaScript is
  `jsLength` (UTF-16 code units).
-/

set_option autoImplicit false

namespace Mahjong

/-! ## Errors seen by the room API client (`api/room.js`) -/

/-- Response body envelope `{ code, message, data }` of the backend. A missing
field is `none`. -/
structure Envelope (δ : Type) where
  code : Option Int
  message : Option String
  data : Option δ
deriving DecidableEq, Repr

/-- An HTTP response as handed over by the transport: `status` and the parsed
body `data` (`none` when the body is absent or falsy). -/
structure HttpResponse (δ : Type) where
  status : Int
  data : Option (Envelope δ)
deriving DecidableEq, Repr

/-- A thrown error object: `message`, optional `code` (for instance
`ECONNABORTED`) and optional `response`. An `Error` made by `new Error(m)` has
neither `code` nor `response`. Thrown values are taken to be objects, as axios
and `new Error` make them. -/
structure JsError (δ : Type) where
  message : String
  code : Option String
  response : Option (HttpResponse δ)
deriving DecidableEq, Repr

/-- The error built by `new Error(message)`. -/
def newError {δ : Type} (message : String) : JsError δ :=
  { message := message, code := none, response := none }

/-- Embedding of `shouldRetry` (room.js 123-129):
`!error.response || (status >= 500 && status < 600) || error.code === 'ECONNABORTED'
|| error.message === 'Network Error'`. -/
def shouldRetry {δ : Type} (error : JsError δ) : Bool :=
  (match error.response with
   | none => true
   | some response => decide (response.status ≥ 500) && decide (response.status < 600)) ||
  error.code == some "ECONNABORTED" ||
  error.message == "Network Error"

/-! ## The retry wrapper -/

/-- What `retryRequest` does that an observer can see, in order: a call of `fn`
or a timer wait of the given number of milliseconds. -/
inductive RetryEvent where
  | invoke
  | wait (ms : Nat)
deriving DecidableEq, Repr

/-- A settled run of `retryRequest`: the promise outcome, the events in order
and the world after the run. -/
structure RetryRun (σ ε α : Type) where
  outcome : Except ε α
  events : List RetryEvent
  world : σ

/-- Embedding of `retryRequest` (room.js 107-118). `fn` is the wrapped call,
`setTimeout ms` is the effect on the world of waiting `ms` milliseconds.
`retries > 0` is the successor case of `retries`, `retries - 1` its predecessor. -/
def retryRequest {σ δ α : Type} (fn : σ → Except (JsError δ) α × σ)
    (setTimeout : Nat → σ → σ) (retries delay : Nat) (w : σ) :
    RetryRun σ (JsError δ) α :=
  match fn w with
  | (Except.ok value, w1) => { outcome := Except.ok value, events := [RetryEvent.invoke], world := w1 }
  | (Except.error error, w1) =>
    match retries with
    | r + 1 =>
      if shouldRetry error then
        let rest := retryRequest fn setTimeout r (delay * 2) (setTimeout delay w1)
        { outcome := rest.outcome
          events := RetryEvent.invoke :: RetryEvent.wait delay :: rest.events
          world := rest.world }
      else
        { outcome := Except.error error, events := [RetryEvent.invoke], world := w1 }
    | 0 => { outcome := Except.error error, events := [RetryEvent.invoke], world := w1 }

/-- Default value of the `retries` parameter of `retryRequest`. -/
def defaultRetries : Nat := 3

/-- Default value of the `delay` parameter of `retryRequest`. -/
def defaultDelay : Nat := 1000

/-- Number of invocations of `fn` in an event list. -/
def invocations (events : List RetryEvent) : Nat :=
  events.count RetryEvent.invoke

/-- The timer waits of an event list, in order. -/
def waits : List RetryEvent → List Nat
  | [] => []
  | RetryEvent.invoke :: rest => waits rest
  | RetryEvent.wait ms :: rest => ms :: waits rest

/-- World in which the attempt number `i` (counted from 0) of a run
`retryRequest fn setTimeout _ delay w` is made, provided the run gets that far. -/
def attemptWorld {σ ε α : Type} (fn : σ → Except ε α × σ) (setTimeout : Nat → σ → σ) :
    Nat → Nat → σ → σ
  | 0, _, w => w
  | i + 1, delay, w => attemptWorld fn setTimeout i (delay * 2) (setTimeout delay (fn w).2)

/-- Result of the attempt number `i` of such a run. -/
def attemptResult {σ ε α : Type} (fn : σ → Except ε α × σ) (setTimeout : Nat → σ → σ)
    (i delay : Nat) (w : σ) : Except ε α :=
  (fn (attemptWorld fn setTimeout i delay w)).1

/-- The events of a run with `k` failed attempts followed by a last attempt:
invoke, wait `delay`, invoke, wait `2 * delay`, ..., invoke. -/
def backoffEvents (delay : Nat) : Nat → List RetryEvent
  | 0 => [RetryEvent.invoke]
  | k + 1 => RetryEvent.invoke :: RetryEvent.wait delay :: backoffEvents (delay * 2) k

/-- A transport stub for examples: the world counts the calls made so far; the
first `failures` calls fail with `error`, later calls succeed with `value`. -/
def flaky {δ α : Type} (failures : Nat) (error : JsError δ) (value : α) :
    Nat → Except (JsError δ) α × Nat :=
  fun n => (if n < failures then Except.error error else Except.ok value, n + 1)

/-- An error with HTTP status `status`, message `message` and no `code`. -/
def statusError {δ : Type} (status : Int) (message : String) : JsError δ :=
  { message := message, code := none, response := some { status := status, data := none } }

/-- An HTTP 400 error whose response body carries the server message. -/
def badRequest : JsError Unit :=
  { message := "Request failed with status code 400", code := some "ERR_BAD_REQUEST"
    response := some { status := 400
                       data := some { code := some 400, message := some "房间已满", data := none } } }

/-! ## The room API client: interceptors and `roomApi.createRoom` -/

/-- JavaScript `m || fallback` for an optional string: a missing or empty
string is falsy. -/
def orDefault (m : Option String) (fallback : String) : String :=
  match m with
  | some s => if s = "" then fallback else s
  | none => fallback

/-- An outgoing request after the request interceptor: method, path, body and
the `Authorization` header when a token is stored. -/
structure ApiRequest (ρ : Type) where
  method : String
  url : String
  body : Option ρ
  authorization : Option String
deriving DecidableEq, Repr

/-- World of the room API client: `net` is everything behind the transport
(network and backend), `token` is the local-storage entry `token`, `notices`
are the texts passed to `ElMessage.error` (oldest first) and `sent` are the
requests handed to the transport (oldest first). -/
structure ApiWorld (ν ρ : Type) where
  net : ν
  token : Option String
  notices : List String
  sent : List (ApiRequest ρ)

/-- Request interceptor (room.js 14-32): attaches `Bearer token` when the
stored token is truthy. The trace header and the console output are not
modelled. -/
def requestInterceptor {ρ : Type} (token : Option String) (method url : String)
    (body : Option ρ) : ApiRequest ρ :=
  { method := method, url := url, body := body
    authorization :=
      match token with
      | some t => if t = "" then none else some ("Bearer " ++ t)
      | none => none }

/-- Success handler of the response interceptor (room.js 41-52): a response
whose body is present and whose business code is not 200 is turned into a
rejection with `new Error(message)`, after a notice; any other response is
returned unchanged. Returns the notice raised, if any. -/
def responseFulfilled {δ : Type} (response : HttpResponse δ) :
    Except (JsError δ) (HttpResponse δ) × Option String :=
  match response.data with
  | some envelope =>
    if envelope.code ≠ some 200 then
      let message := orDefault envelope.message "请求失败"
      (Except.error (newError message), some message)
    else (Except.ok response, none)
  | none => (Except.ok response, none)

/-- Message chosen by the error handler of the response interceptor
(room.js 56-90). -/
def errorMessage {δ : Type} (error : JsError δ) : String :=
  match error.response with
  | some response =>
    let serverMessage : Option String := response.data.bind (fun d => d.message)
    if response.status = 400 then orDefault serverMessage "请求参数错误"
    else if response.status = 401 then "未授权，请重新登录"
    else if response.status = 403 then "无权限访问"
    else if response.status = 404 then "请求的资源不存在"
    else if response.status = 429 then "请求过于频繁，请稍后重试"
    else if response.status = 500 then orDefault serverMessage "服务器内部错误"
    else orDefault serverMessage ("请求失败 (" ++ toString response.status ++ ")")
  | none =>
    if error.code = some "ECONNABORTED" then "请求超时，请检查网络连接"
    else if error.message = "Network Error" then "网络连接失败，请检查网络设置"
    else "网络错误，请稍后重试"

/-- Whether the error handler evicts the stored token: only for status 401. -/
def evictsToken {δ : Type} (error : JsError δ) : Bool :=
  match error.response with
  | some response => decide (response.status = 401)
  | none => false

/-- One call through the axios instance (`api.post`, `api.get`, ...): request
interceptor, transport, then the response interceptor (success handler for a
resolved transport, error handler for a rejected one, which raises a notice and
rejects with the same error). -/
def apiCall {ν ρ δ : Type}
    (transport : ApiRequest ρ → ν → Except (JsError δ) (HttpResponse δ) × ν)
    (method url : String) (body : Option ρ) (w : ApiWorld ν ρ) :
    Except (JsError δ) (HttpResponse δ) × ApiWorld ν ρ :=
  let request := requestInterceptor w.token method url body
  match transport request w.net with
  | (Except.ok response, net1) =>
    match responseFulfilled response with
    | (result, some notice) =>
      (result, { net := net1, token := w.token, notices := w.notices ++ [notice]
                 sent := w.sent ++ [request] })
    | (result, none) =>
      (result, { net := net1, token := w.token, notices := w.notices
                 sent := w.sent ++ [request] })
  | (Except.error error, net1) =>
    (Except.error error,
      { net := net1
        token := if evictsToken error then none else w.token
        notices := w.notices ++ [errorMessage error]
        sent := w.sent ++ [request] })

/-- Effect of a timer wait on the client world: time passes behind the
transport only. -/
def apiSetTimeout {ν ρ : Type} (tick : Nat → ν → ν) (ms : Nat) (w : ApiWorld ν ρ) :
    ApiWorld ν ρ :=
  { net := tick ms w.net, token := w.token, notices := w.notices, sent := w.sent }

/-- Embedding of `roomApi.createRoom` (room.js 148-152):
`retryRequest(() => api.post('/rooms', roomData, ...))` with the default
`retries` and `delay`. -/
def createRoom {ν ρ δ : Type}
    (transport : ApiRequest ρ → ν → Except (JsError δ) (HttpResponse δ) × ν)
    (tick : Nat → ν → ν) (roomData : ρ) (w : ApiWorld ν ρ) :
    RetryRun (ApiWorld ν ρ) (JsError δ) (HttpResponse δ) :=
  retryRequest (apiCall transport "post" "/rooms" (some roomData)) (apiSetTimeout tick)
    defaultRetries defaultDelay w

/-- A transport stub that always answers HTTP 200 with the given business
envelope; its world counts the requests received. -/
def businessAnswer {ρ δ : Type} (envelope : Envelope δ) :
    ApiRequest ρ → Nat → Except (JsError δ) (HttpResponse δ) × Nat :=
  fun _ n => (Except.ok { status := 200, data := some envelope }, n + 1)

/-- The business failure "room is full": HTTP 200 carrying code 4001. -/
def roomFull : Envelope Unit :=
  { code := some 4001, message := some "房间已满", data := none }

/-- A fresh client world over a request counter. -/
def freshApiWorld {ρ : Type} : ApiWorld Nat ρ :=
  { net := 0, token := none, notices := [], sent := [] }

/-! ## JavaScript `Map` as an insertion-ordered association list -/

/-- Lookup `map.get(key)`: the first entry with that key. -/
def mapGet {κ ν : Type} [DecidableEq κ] (key : κ) : List (κ × ν) → Option ν
  | [] => none
  | (k, v) :: rest => if k = key then some v else mapGet key rest

/-- Membership test `map.has(key)`. -/
def mapHas {κ ν : Type} [DecidableEq κ] (key : κ) (m : List (κ × ν)) : Bool :=
  (mapGet key m).isSome

/-- Update `map.set(key, value)`: an existing entry keeps its position, a new
entry goes to the end. -/
def mapSet {κ ν : Type} [DecidableEq κ] (key : κ) (value : ν) : List (κ × ν) → List (κ × ν)
  | [] => [(key, value)]
  | (k, v) :: rest => if k = key then (key, value) :: rest else (k, v) :: mapSet key value rest

/-- Removal `map.delete(key)`. -/
def mapDelete {κ ν : Type} [DecidableEq κ] (key : κ) : List (κ × ν) → List (κ × ν)
  | [] => []
  | (k, v) :: rest => if k = key then mapDelete key rest else (k, v) :: mapDelete key rest

/-! ## The connection registry (`WebSocketManager`, room.js 283-366) -/

/-- The `readyState` of a browser `WebSocket`. -/
inductive ReadyState where
  | CONNECTING
  | OPEN
  | CLOSING
  | CLOSED
deriving DecidableEq, Repr

/-- A browser `WebSocket` object as far as the registry deals with it: its URL,
the room number captured by the callbacks that `connect` binds to it, its
`readyState`, and the frames handed to `send` (oldest first). -/
structure Socket where
  url : String
  roomNumber : String
  readyState : ReadyState
  frames : List String
deriving DecidableEq, Repr

/-- Calls the registry makes on sockets, as an observer sees them. A handle is
the position of the socket in `WsWorld.sockets`. -/
inductive WsCall where
  | close (handle : Nat)
  | create (handle : Nat)
  | send (handle : Nat) (frame : String)
deriving DecidableEq, Repr

/-- The registry and the sockets it has created. `connections` is the field
`this.connections` (room number to handle), `sockets` holds every `WebSocket`
constructed so far, `calls` records the socket calls in order and `wsBaseUrl`
is the setting `VITE_WS_BASE_URL`. -/
structure WsWorld where
  connections : List (String × Nat)
  sockets : List Socket
  calls : List WsCall
  wsBaseUrl : Option String
deriving DecidableEq, Repr

/-- The state `new WebSocketManager()` starts from. -/
def WsWorld.empty : WsWorld :=
  { connections := [], sockets := [], calls := [], wsBaseUrl := none }

/-- Method `ws.close()` of the browser: a socket that is connecting or open
starts closing, its close event comes later; otherwise nothing happens. -/
def Socket.close (s : Socket) : Socket :=
  match s.readyState with
  | ReadyState.CONNECTING => { s with readyState := ReadyState.CLOSING }
  | ReadyState.OPEN => { s with readyState := ReadyState.CLOSING }
  | ReadyState.CLOSING => s
  | ReadyState.CLOSED => s

/-- Apply `f` to the socket behind `handle`. -/
def updateSocket (handle : Nat) (f : Socket → Socket) (sockets : List Socket) : List Socket :=
  sockets.modify f handle

/-- Embedding of `disconnect` (room.js 336-342). -/
def disconnect (roomNumber : String) (w : WsWorld) : WsWorld :=
  match mapGet roomNumber w.connections with
  | some ws =>
    { w with
      sockets := updateSocket ws Socket.close w.sockets
      calls := w.calls ++ [WsCall.close ws]
      connections := mapDelete roomNumber w.connections }
  | none => w

/-- The URL that `connect` opens. -/
def wsUrl (wsBaseUrl : Option String) (roomNumber : String) : String :=
  orDefault wsBaseUrl "ws://localhost:9914" ++ "/ws/room/" ++ roomNumber

/-- Embedding of `connect` (room.js 294-330); returns the new handle. The four
callbacks are bound to the new socket: `onclose` is `socketClose` below, the
others only forward to the caller. -/
def connect (roomNumber : String) (w : WsWorld) : Nat × WsWorld :=
  let w1 := if mapHas roomNumber w.connections then disconnect roomNumber w else w
  let ws := w1.sockets.length
  (ws,
    { w1 with
      sockets := w1.sockets ++
        [{ url := wsUrl w1.wsBaseUrl roomNumber, roomNumber := roomNumber
           readyState := ReadyState.CONNECTING, frames := [] }]
      calls := w1.calls ++ [WsCall.create ws]
      connections := mapSet roomNumber ws w1.connections })

/-- Embedding of `disconnectAll` (room.js 347-351): `disconnect` for every key
of the map, in insertion order. -/
def disconnectAll (w : WsWorld) : WsWorld :=
  (w.connections.map Prod.fst).foldl (fun acc roomNumber => disconnect roomNumber acc) w

/-- Embedding of `sendMessage` (room.js 358-365); `stringify` is
`JSON.stringify`. -/
def sendMessage {μ : Type} (stringify : μ → String) (roomNumber : String) (message : μ)
    (w : WsWorld) : Bool × WsWorld :=
  match mapGet roomNumber w.connections with
  | some ws =>
    match w.sockets[ws]? with
    | some s =>
      if s.readyState = ReadyState.OPEN then
        (true,
          { w with
            sockets := updateSocket ws
              (fun s => { s with frames := s.frames ++ [stringify message] }) w.sockets
            calls := w.calls ++ [WsCall.send ws (stringify message)] })
      else (false, w)
    | none => (false, w)
  | none => (false, w)

/-- The browser opens the socket behind `handle`: `CONNECTING` becomes `OPEN`
(`onopen` only forwards to the caller). -/
def socketOpen (handle : Nat) (w : WsWorld) : WsWorld :=
  { w with
    sockets := updateSocket handle
      (fun s => if s.readyState = ReadyState.CONNECTING then
        { s with readyState := ReadyState.OPEN } else s) w.sockets }

/-- The browser fires the close event of the socket behind `handle` (after
`ws.close()`, or because the peer or the network closed it): the socket becomes
`CLOSED` and its `onclose` callback (room.js 317-321) deletes the room number
it was created for from the map. A socket that is already closed, or a handle
that does not exist, fires nothing. -/
def socketClose (handle : Nat) (w : WsWorld) : WsWorld :=
  match w.sockets[handle]? with
  | some s =>
    if s.readyState = ReadyState.CLOSED then w
    else
      { w with
        sockets := updateSocket handle (fun s => { s with readyState := ReadyState.CLOSED }) w.sockets
        connections := mapDelete s.roomNumber w.connections }
  | none => w

/-- What can happen to the registry: calls of its methods and browser events. -/
inductive WsOp where
  | connect (roomNumber : String)
  | disconnect (roomNumber : String)
  | disconnectAll
  | socketOpen (handle : Nat)
  | socketClose (handle : Nat)
deriving DecidableEq, Repr

/-- One step of the registry. -/
def wsStep (w : WsWorld) : WsOp → WsWorld
  | WsOp.connect roomNumber => (connect roomNumber w).2
  | WsOp.disconnect roomNumber => disconnect roomNumber w
  | WsOp.disconnectAll => disconnectAll w
  | WsOp.socketOpen handle => socketOpen handle w
  | WsOp.socketClose handle => socketClose handle w

/-- The state reached from the empty registry by a sequence of steps. -/
def wsRun (ops : List WsOp) : WsWorld :=
  ops.foldl wsStep WsWorld.empty

/-- A socket is live when it has neither been closed by a `close()` call nor
closed on its own: it is connecting or open. -/
def Socket.isLive (s : Socket) : Bool :=
  decide (s.readyState = ReadyState.CONNECTING) || decide (s.readyState = ReadyState.OPEN)

/-- Handles of the live sockets created for `roomNumber`, in creation order. -/
def liveHandles (roomNumber : String) (w : WsWorld) : List Nat :=
  (List.range w.sockets.length).filter (fun handle =>
    match w.sockets[handle]? with
    | some s => decide (s.roomNumber = roomNumber) && s.isLive
    | none => false)

/-- Every handle in the map is the position of a socket. -/
def WsWorld.Registered (w : WsWorld) : Prop :=
  ∀ entry ∈ w.connections, entry.2 < w.sockets.length

/-- A registry with room 1001 registered and its socket open, for examples. -/
def openRegistry : WsWorld :=
  wsRun [WsOp.connect "1001", WsOp.socketOpen 0, WsOp.connect "1002"]

/-! ## JavaScript string operations used by the chat module -/

/-- Number of UTF-16 code units of a character. -/
def utf16Units (c : Char) : Nat :=
  if c.toNat < 65536 then 1 else 2

/-- JavaScript `s.length`: the number of UTF-16 code units of `s`. -/
def jsLength (s : String) : Nat :=
  (s.data.map utf16Units).sum

/-- White space of JavaScript (`WhiteSpace` and `LineTerminator`): what
`trim` strips and what the pattern class `\s` matches. -/
def isWhitespace (c : Char) : Bool :=
  let n := c.toNat
  n = 9 || n = 10 || n = 11 || n = 12 || n = 13 || n = 32 || n = 160 || n = 5760 ||
  (decide (8192 ≤ n) && decide (n ≤ 8202)) || n = 8232 || n = 8233 || n = 8239 ||
  n = 8287 || n = 12288 || n = 65279

/-- JavaScript `s.trim()`. -/
def jsTrim (s : String) : String :=
  ⟨((s.data.dropWhile isWhitespace).reverse.dropWhile isWhitespace).reverse⟩

/-- JavaScript `s.toLowerCase()`, modelled on the ASCII letters: every other
character is left as it is. The characters of the blocked terms have no case. -/
def toLowerCase (s : String) : String :=
  ⟨s.data.map Char.toLower⟩

/-- Whether the list `w` occurs in `t` as a contiguous block. -/
def listIncludes (w : List Char) : List Char → Bool
  | [] => w.isEmpty
  | c :: cs => w.isPrefixOf (c :: cs) || listIncludes w cs

/-- JavaScript `s.includes(w)`. -/
def includes (s w : String) : Bool :=
  listIncludes w.data s.data

/-! ## `chatUtils` (`api/chat.js`) -/

/-- Result object of `validateMessage`: `valid` and, on rejection, `message`. -/
structure Validation where
  valid : Bool
  message : Option String
deriving DecidableEq, Repr

/-- The five blocked terms of `validateMessage` and `filterSensitiveWords`. -/
def sensitiveWords : List String :=
  ["政治", "色情", "暴力", "赌博", "毒品"]

/-- Embedding of `chatUtils.validateMessage` (chat.js 89-109). -/
def validateMessage (content : String) : Validation :=
  if content = "" ∨ jsTrim content = "" then
    { valid := false, message := some "消息内容不能为空" }
  else if jsLength content > 100 then
    { valid := false, message := some "消息长度不能超过100个字符" }
  else if sensitiveWords.any (fun word => includes (toLowerCase content) (toLowerCase word)) then
    { valid := false, message := some "消息包含敏感词汇" }
  else
    { valid := true, message := none }

/-- Whether the code point of `c` lies in `[lo, hi]`. -/
def inRange (lo hi : Nat) (c : Char) : Bool :=
  decide (lo ≤ c.toNat) && decide (c.toNat ≤ hi)

/-- The first pattern of `detectMessageType`: a character of
`U+1F600..U+1F64F` at the start, or a character of one of the five other
ranges anywhere (the anchor binds to the first alternative only). -/
def emojiPattern (content : String) : Bool :=
  (match content.data with
   | c :: _ => inRange 0x1F600 0x1F64F c
   | [] => false) ||
  content.data.any (fun c =>
    inRange 0x1F300 0x1F5FF c || inRange 0x1F680 0x1F6FF c || inRange 0x1F1E0 0x1F1FF c ||
    inRange 0x2600 0x26FF c || inRange 0x2700 0x27BF c)

/-- Whether `t` starts with `scheme` followed by a character that is not white
space. -/
def linkStartsAt (scheme : String) (t : List Char) : Bool :=
  scheme.data.isPrefixOf t &&
  (match t.drop scheme.data.length with
   | c :: _ => !isWhitespace c
   | [] => false)

/-- The link pattern of `detectMessageType`: `http://` or `https://` followed
by at least one character that is not white space, anywhere in the content. -/
def linkPattern (content : String) : Bool :=
  content.data.tails.any (fun t => linkStartsAt "http://" t || linkStartsAt "https://" t)

/-- Embedding of `chatUtils.detectMessageType` (chat.js 146-163). -/
def detectMessageType (content : String) : String :=
  if emojiPattern content then "emoji"
  else if includes content "[系统]" then "system"
  else if linkPattern content then "link"
  else "text"

/-! ## The chat store (`stores/chat.js`) -/

/-- A stored chat message, as built by `handleMessage`. -/
structure ChatMessage where
  id : String
  senderId : Option String
  sender : String
  avatarUrl : String
  content : String
  timestamp : Nat
  type : String
  isRead : Bool
  messageType : String
deriving DecidableEq, Repr

/-- The object handed to `handleMessage`: every field but `content` may be
missing. `isRead` and `messageType` are carried by the objects that
`addSystemMessage` builds. -/
structure MessageData where
  id : Option String
  senderId : Option String
  sender : Option String
  avatarUrl : Option String
  content : String
  timestamp : Option Nat
  type : Option String
  isRead : Option Bool
  messageType : Option String
deriving DecidableEq, Repr

/-- State of the chat store. `messageHistory` is the map from room id to that
room's message array; `messages` is the array last assigned to `messages.value`. -/
structure ChatStore where
  messages : List ChatMessage
  isLoading : Bool
  error : Option String
  isConnected : Bool
  currentRoomId : String
  messageHistory : List (String × List ChatMessage)
deriving DecidableEq, Repr

/-- JavaScript `n || fallback` for an optional number: missing or zero is
falsy. -/
def numOrDefault (n : Option Nat) (fallback : Nat) : Nat :=
  match n with
  | some k => if k = 0 then fallback else k
  | none => fallback

/-- Largest number of messages kept per room. -/
def historyCap : Nat := 100

/-- The message object that `handleMessage` builds from its argument
(stores/chat.js 79-89). `freshId` is what `generateMessageId()` returns and
`now` what `Date.now()` returns. -/
def buildMessage (freshId : String) (now : Nat) (messageData : MessageData) : ChatMessage :=
  { id := orDefault messageData.id freshId
    senderId := messageData.senderId
    sender := orDefault messageData.sender "未知用户"
    avatarUrl := orDefault messageData.avatarUrl ""
    content := messageData.content
    timestamp := numOrDefault messageData.timestamp now
    type := orDefault messageData.type "user"
    isRead := false
    messageType := detectMessageType messageData.content }

/-- The truncation of `handleMessage` (stores/chat.js 102-104):
`if (length > 100) splice(0, length - 100)`. -/
def truncateHistory (roomMessages : List ChatMessage) : List ChatMessage :=
  if roomMessages.length > historyCap then roomMessages.drop (roomMessages.length - historyCap)
  else roomMessages

/-- Embedding of `handleMessage` (stores/chat.js 78-109). -/
def handleMessage (freshId : String) (now : Nat) (messageData : MessageData)
    (s : ChatStore) : ChatStore :=
  let message := buildMessage freshId now messageData
  let roomId := s.currentRoomId
  if roomId ≠ "" then
    let history :=
      if mapHas roomId s.messageHistory then s.messageHistory
      else mapSet roomId [] s.messageHistory
    let roomMessages := truncateHistory ((mapGet roomId history).getD [] ++ [message])
    { s with messageHistory := mapSet roomId roomMessages history, messages := roomMessages }
  else s

/-- Room history shown for the current room (`currentMessages`,
stores/chat.js 15-18). -/
def currentMessages (s : ChatStore) : List ChatMessage :=
  if s.currentRoomId = "" then [] else (mapGet s.currentRoomId s.messageHistory).getD []

/-- A text message from player `p1` with the given id, for examples. -/
def sampleMessage (id : String) : ChatMessage :=
  { id := id, senderId := some "p1", sender := "Alice", avatarUrl := "", content := "碰"
    timestamp := 1, type := "user", isRead := true, messageType := "text" }

/-- An incoming message object carrying only sender and content. -/
def sampleData : MessageData :=
  { id := none, senderId := some "p2", sender := some "Bob", avatarUrl := none, content := "胡了"
    timestamp := none, type := none, isRead := none, messageType := none }

/-- A chat store whose current room 1001 holds the given history. -/
def sampleStore (history : List ChatMessage) : ChatStore :=
  { messages := history, isLoading := false, error := none, isConnected := true
    currentRoomId := "1001", messageHistory := [("1001", history)] }

/-- A string of 101 spaces: longer than 100 and made of white space only. -/
def blankLine : String :=
  ⟨List.replicate 101 ' '⟩

/-- An HTTP 204 response: successful and without a body. -/
def noContent : HttpResponse Unit :=
  { status := 204, data := none }

/-- A transport stub that always rejects with the given error; its world counts
the requests received. -/
def failingTransport {ρ δ : Type} (error : JsError δ) :
    ApiRequest ρ → Nat → Except (JsError δ) (HttpResponse δ) × Nat :=
  fun _ n => (Except.error error, n + 1)

/-! ## `filterSensitiveWords` (`api/chat.js` 116-126) -/

/-- The replacement text of `filterSensitiveWords`. -/
def maskText : String := "***"

/-- Case folding of the pattern flag `i`, modelled on the ASCII letters: every
other character is left as it is. The characters of the blocked terms have no
case. -/
def canonicalize (c : Char) : Char :=
  c.toUpper

/-- Whether the literal `pattern` matches at the start of `t` under the flag
`i`. -/
def matchesAt : List Char → List Char → Bool
  | [], _ => true
  | _ :: _, [] => false
  | p :: ps, c :: cs => canonicalize p == canonicalize c && matchesAt ps cs

/-- Left-to-right scan of `replace` with a global pattern, for a pattern that is
not empty: `skip` characters of a match are still to be passed over; at a
position where the pattern matches, the replacement is emitted and the match is
passed over, elsewhere the character is copied. -/
def replaceFrom (pattern replacement : List Char) : Nat → List Char → List Char
  | _, [] => []
  | skip + 1, _ :: cs => replaceFrom pattern replacement skip cs
  | 0, c :: cs =>
    if matchesAt pattern (c :: cs) then
      replacement ++ replaceFrom pattern replacement (pattern.length - 1) cs
    else c :: replaceFrom pattern replacement 0 cs

/-- JavaScript `s.replace(new RegExp(word, 'gi'), replacement)` for a `word`
without pattern metacharacters and a replacement without `$`. The empty pattern
matches before every character and at the end. -/
def replaceAllIgnoreCase (word replacement s : String) : String :=
  if word.data = [] then
    ⟨replacement.data ++ s.data.flatMap (fun c => c :: replacement.data)⟩
  else ⟨replaceFrom word.data replacement.data 0 s.data⟩

/-- Embedding of `chatUtils.filterSensitiveWords` (chat.js 116-126). -/
def filterSensitiveWords (content : String) : String :=
  sensitiveWords.foldl (fun filtered word => replaceAllIgnoreCase word maskText filtered) content

/-- Reading of "every occurrence of each blocked term replaced by the mask": one
left-to-right pass that, at a position where some term of `terms` starts,
emits the mask and passes over that term, and elsewhere copies the character. -/
def maskOccurrences (terms : List (List Char)) (mask : List Char) : Nat → List Char → List Char
  | _, [] => []
  | skip + 1, _ :: cs => maskOccurrences terms mask skip cs
  | 0, c :: cs =>
    match terms.find? (fun term => term.isPrefixOf (c :: cs)) with
    | some term => mask ++ maskOccurrences terms mask (term.length - 1) cs
    | none => c :: maskOccurrences terms mask 0 cs

/-- The string `s` with every occurrence of each of the five blocked terms
replaced by the mask. -/
def maskBlockedTerms (s : String) : String :=
  ⟨maskOccurrences (sensitiveWords.map String.data) maskText.data 0 s.data⟩

/-! ## Chat store actions (`stores/chat.js`) -/

/-- Embedding of `getCurrentUserId` (stores/chat.js 217-220): the local-storage
entry `userId`, or `guest`. -/
def getCurrentUserId (storedUserId : Option String) : String :=
  orDefault storedUserId "guest"

/-- Embedding of `unreadCount` (stores/chat.js 20-22). -/
def unreadCount (storedUserId : Option String) (s : ChatStore) : Nat :=
  ((currentMessages s).filter (fun msg =>
    !msg.isRead && decide (msg.senderId ≠ some (getCurrentUserId storedUserId)))).length

/-- The object literal that `addSystemMessage` builds (stores/chat.js 140-150). -/
def systemMessageData (freshId : String) (now : Nat) (content : String) : MessageData :=
  { id := some freshId, senderId := some "system", sender := some "系统", avatarUrl := some ""
    content := content, timestamp := some now, type := some "system", isRead := some true
    messageType := some "system" }

/-- Embedding of `addSystemMessage` (stores/chat.js 139-153). `freshId` and `now`
are the results of its own calls of `generateMessageId()` and `Date.now()`,
`nextId` and `nextNow` what the same calls would return inside `handleMessage`. -/
def addSystemMessage (freshId : String) (now : Nat) (nextId : String) (nextNow : Nat)
    (content : String) (s : ChatStore) : ChatStore :=
  handleMessage nextId nextNow (systemMessageData freshId now content) s

/-- Argument of `chatEvents.sendChatMessage`. -/
structure ChatEventParams where
  roomId : String
  content : String
deriving DecidableEq, Repr

/-- Argument of `chatApi.sendMessage`. -/
structure ChatPostParams where
  userId : String
  roomId : String
  content : String
deriving DecidableEq, Repr

/-- The module `./client` that `api/chat.js` imports: `emit` sends an event on the
push channel, `post` sends a request on the request/response channel. Either
may fail. -/
structure ApiClient (σ δ : Type) where
  emit : String → ChatEventParams → σ → Except (JsError δ) Unit × σ
  post : String → ChatPostParams → σ → Except (JsError δ) (HttpResponse δ) × σ

/-- Embedding of `chatEvents.sendChatMessage` (api/chat.js 59-61). -/
def chatEvents.sendChatMessage {σ δ : Type} (client : ApiClient σ δ) (params : ChatEventParams)
    (w : σ) : Except (JsError δ) Unit × σ :=
  client.emit "chat_message" params w

/-- Embedding of `chatApi.sendMessage` (api/chat.js 15-17). -/
def chatApi.sendMessage {σ δ : Type} (client : ApiClient σ δ) (params : ChatPostParams)
    (w : σ) : Except (JsError δ) (HttpResponse δ) × σ :=
  client.post "/chat/message" params w

/-- What the chat store hands to the two channels, in order. -/
inductive ChatDispatch where
  | event (params : ChatEventParams)
  | request (params : ChatPostParams)
deriving DecidableEq, Repr

/-- The message content carried by a dispatch. -/
def ChatDispatch.content : ChatDispatch → String
  | ChatDispatch.event params => params.content
  | ChatDispatch.request params => params.content

/-- A settled call of the chat store's `sendMessage`: the promise outcome (`true`
stands for the object with `success: true`), the store, the dispatches made and
the world afterwards. -/
structure ChatSend (σ ε : Type) where
  outcome : Except ε Bool
  store : ChatStore
  dispatched : List ChatDispatch
  world : σ

/-- The `catch` and `finally` blocks of the chat store's `sendMessage`:
`error.value = err.message`, then `isLoading.value = false`. -/
def ChatStore.failed (s : ChatStore) (message : String) : ChatStore :=
  { s with error := some message, isLoading := false }

/-- Embedding of the chat store's `sendMessage` (stores/chat.js 30-63). -/
def ChatStore.sendMessage {σ δ : Type} (client : ApiClient σ δ) (storedUserId : Option String)
    (content : String) (s : ChatStore) (w : σ) : ChatSend σ (JsError δ) :=
  let validation := validateMessage content
  if validation.valid = false then
    let err : JsError δ := newError (validation.message.getD "")
    { outcome := Except.error err, store := s.failed err.message, dispatched := [], world := w }
  else
    let filteredContent := filterSensitiveWords content
    let eventParams : ChatEventParams := { roomId := s.currentRoomId, content := filteredContent }
    match chatEvents.sendChatMessage client eventParams w with
    | (Except.error err, w1) =>
      { outcome := Except.error err, store := s.failed err.message
        dispatched := [ChatDispatch.event eventParams], world := w1 }
    | (Except.ok _, w1) =>
      let postParams : ChatPostParams :=
        { userId := getCurrentUserId storedUserId, roomId := s.currentRoomId
          content := filteredContent }
      match chatApi.sendMessage client postParams w1 with
      | (Except.error err, w2) =>
        { outcome := Except.error err, store := s.failed err.message
          dispatched := [ChatDispatch.event eventParams, ChatDispatch.request postParams]
          world := w2 }
      | (Except.ok _, w2) =>
        { outcome := Except.ok true, store := { s with isLoading := false }
          dispatched := [ChatDispatch.event eventParams, ChatDispatch.request postParams]
          world := w2 }

/-- A client stub whose two channels always succeed; its world counts the calls. -/
def quietClient : ApiClient Nat Unit :=
  { emit := fun _ _ n => (Except.ok (), n + 1)
    post := fun _ _ n => (Except.ok { status := 200, data := none }, n + 1) }

/-! ## Room store actions (`stores/room.js`) -/

/-- The object `playerInfo` handed to `joinRoom`. -/
structure PlayerInfo where
  playerId : Option String
  playerName : String
  password : Option String
  asSpectator : Option Bool
  avatarUrl : Option String
  deviceInfo : Option String
deriving DecidableEq, Repr

/-- State of the room store; `δ` is the type of a room as the backend sends it. -/
structure RoomStore (δ : Type) where
  currentRoom : Option δ
  roomList : List δ
  isLoading : Bool
  error : Option String
  wsConnection : Option Nat
  currentPlayerId : String

/-- Embedding of `generateUserId` (stores/room.js 331-333); `now` is `Date.now()`
and `random` the nine characters taken from `Math.random()`. -/
def generateUserId (now : Nat) (random : String) : String :=
  "player_" ++ toString now ++ "_" ++ random

/-- The first step of `joinRoom` (stores/room.js 100-103): a missing or empty
`playerId` is replaced by a generated one. -/
def ensurePlayerId (now : Nat) (random : String) (playerInfo : PlayerInfo) : PlayerInfo :=
  match playerInfo.playerId with
  | some id => if id = "" then { playerInfo with playerId := some (generateUserId now random) }
               else playerInfo
  | none => { playerInfo with playerId := some (generateUserId now random) }

/-- The text recorded by the `catch` block of a room store action:
`err.response?.data?.message || err.message || fallback`. -/
def actionErrorText {δ : Type} (err : JsError δ) (fallback : String) : String :=
  orDefault
    (some (orDefault ((err.response.bind (fun r => r.data)).bind (fun d => d.message)) err.message))
    fallback

/-- A settled call of a room store action: the promise outcome, the store, the
local storage, the caller's `playerInfo` object after the call, the arguments
passed to the backend call (oldest first) and the world afterwards. -/
structure RoomAction (σ δ α : Type) where
  outcome : Except (JsError δ) α
  store : RoomStore δ
  localStorage : List (String × String)
  playerInfo : PlayerInfo
  requested : List (String × PlayerInfo)
  world : σ

/-- Embedding of `setCurrentPlayer` (stores/room.js 307-311) on the store. -/
def setCurrentPlayerId {δ : Type} (id : String) (s : RoomStore δ) : RoomStore δ :=
  { s with currentPlayerId := id }

/-- Embedding of `setCurrentPlayer` (stores/room.js 307-311) on the local
storage. -/
def persistCurrentPlayer (id nickname : String) (localStorage : List (String × String)) :
    List (String × String) :=
  mapSet "currentPlayerNickname" nickname (mapSet "currentPlayerId" id localStorage)

/-- Embedding of the room store's `joinRoom` (stores/room.js 95-122).
`joinRoomApi` is `roomApi.joinRoom`. Once the backend call has resolved nothing
in the `try` block throws: a response without a body carries the empty string
as `response.data`, whose property `data` is `undefined`, so `currentRoom`
becomes `response.data.data` (absent when there is no envelope or no `data` in
it), `setCurrentPlayer` runs and the action resolves with `response.data`. -/
def RoomStore.joinRoom {σ δ : Type}
    (joinRoomApi : String → PlayerInfo → σ → Except (JsError δ) (HttpResponse δ) × σ)
    (now : Nat) (random : String) (roomNumber : String) (playerInfo : PlayerInfo)
    (s : RoomStore δ) (localStorage : List (String × String)) (w : σ) :
    RoomAction σ δ (Option (Envelope δ)) :=
  let info := ensurePlayerId now random playerInfo
  match joinRoomApi roomNumber info w with
  | (Except.ok response, w1) =>
    { outcome := Except.ok response.data
      store := { setCurrentPlayerId (info.playerId.getD "")
                   { s with error := none
                            currentRoom := response.data.bind (fun envelope => envelope.data) } with
                 isLoading := false }
      localStorage := persistCurrentPlayer (info.playerId.getD "") info.playerName localStorage
      playerInfo := info
      requested := [(roomNumber, info)]
      world := w1 }
  | (Except.error err, w1) =>
    { outcome := Except.error err
      store := { s with error := some (actionErrorText err "加入房间失败"), isLoading := false }
      localStorage := localStorage
      playerInfo := info
      requested := [(roomNumber, info)]
      world := w1 }

/-- Embedding of `roomApi.joinRoom` (api/room.js 166-170), as the store calls it:
outcome and world of the retried `api.post`. -/
def roomApi.joinRoom {ν δ : Type}
    (transport : ApiRequest PlayerInfo → ν → Except (JsError δ) (HttpResponse δ) × ν)
    (tick : Nat → ν → ν) (roomNumber : String) (playerInfo : PlayerInfo)
    (w : ApiWorld ν PlayerInfo) :
    Except (JsError δ) (HttpResponse δ) × ApiWorld ν PlayerInfo :=
  ((retryRequest (apiCall transport "post" ("/rooms/" ++ roomNumber ++ "/join") (some playerInfo))
      (apiSetTimeout tick) defaultRetries defaultDelay w).outcome,
   (retryRequest (apiCall transport "post" ("/rooms/" ++ roomNumber ++ "/join") (some playerInfo))
      (apiSetTimeout tick) defaultRetries defaultDelay w).world)

/-- The player of the scenario: name Alice, no identifier. -/
def alice : PlayerInfo :=
  { playerId := none, playerName := "Alice", password := none, asSpectator := none
    avatarUrl := none, deviceInfo := none }

/-- A room store as created, over rooms given by their name. -/
def freshRoomStore : RoomStore String :=
  { currentRoom := none, roomList := [], isLoading := false, error := none
    wsConnection := none, currentPlayerId := "" }

/-- A transport stub that answers every request with the room `ABC123` in an
envelope with code 200. -/
def roomAnswer : ApiRequest PlayerInfo → Nat →
    Except (JsError String) (HttpResponse String) × Nat :=
  fun _ n =>
    (Except.ok { status := 200
                 data := some { code := some 200, message := some "ok", data := some "ABC123" } },
     n + 1)

/-- A transport stub that answers every request with status 204 and no body. -/
def bodylessAnswer : ApiRequest PlayerInfo → Nat →
    Except (JsError String) (HttpResponse String) × Nat :=
  fun _ n => (Except.ok { status := 204, data := none }, n + 1)

/-! ## The game API client and the game store (`api/game.js`, `stores/game.js`) -/

/-- A mahjong tile (`GameTile`, stores/game.js 53-59). -/
structure GameTile where
  id : String
  type : String
  value : String
  isMixed : Bool
deriving DecidableEq, Repr

/-- The game as the backend sends it, as far as the store reads it. -/
structure Game where
  id : String
  status : String
  currentPlayer : Nat
deriving DecidableEq, Repr

/-- The record kept in `lastAction`. -/
structure LastAction where
  type : String
  tile : Option GameTile
  tiles : Option (List GameTile)
  timestamp : Nat
deriving DecidableEq, Repr

/-- State of the game store; `ρ` is the type of a room as the backend sends it. -/
structure GameStore (ρ : Type) where
  currentRoom : Option ρ
  currentGame : Option Game
  playerHand : List GameTile
  discardPile : List GameTile
  gameState : String
  currentPlayer : Nat
  isSpectating : Bool
  connectionStatus : String
  lastAction : Option LastAction

/-- Embedding of `canPlayTile` (stores/game.js 78-80). -/
def canPlayTile {ρ : Type} (s : GameStore ρ) : Bool :=
  decide (s.gameState = "PLAYING") && !s.isSpectating

/-- Body of the request of `gameApi.playTile`. -/
structure PlayTileBody where
  tileId : String
deriving DecidableEq, Repr

/-- One call through the axios instance of `api/game.js` (12-36): the request
interceptor attaches the token, the response interceptor returns the response
or rejects with the error as it is. -/
def gameApiCall {ν β δ : Type}
    (transport : ApiRequest β → ν → Except (JsError δ) (HttpResponse δ) × ν)
    (method url : String) (body : Option β) (w : ApiWorld ν β) :
    Except (JsError δ) (HttpResponse δ) × ApiWorld ν β :=
  match transport (requestInterceptor w.token method url body) w.net with
  | (result, net1) =>
    (result,
      { net := net1, token := w.token, notices := w.notices
        sent := w.sent ++ [requestInterceptor w.token method url body] })

/-- Embedding of `gameApi.playTile` (api/game.js 94-96). -/
def gameApi.playTile {ν δ : Type}
    (transport : ApiRequest PlayTileBody → ν → Except (JsError δ) (HttpResponse δ) × ν)
    (gameId tileId : String) (w : ApiWorld ν PlayTileBody) :
    Except (JsError δ) (HttpResponse δ) × ApiWorld ν PlayTileBody :=
  gameApiCall transport "post" ("/games/" ++ gameId ++ "/play") (some { tileId := tileId }) w

/-- The removal in `playTile` (stores/game.js 205-208): `findIndex` by id, then
`splice(index, 1)` when an index was found. -/
def removeFirstWithId (id : String) (hand : List GameTile) : List GameTile :=
  match hand.findIdx? (fun t => decide (t.id = id)) with
  | some index => hand.eraseIdx index
  | none => hand

/-- A settled call of a game store action: the promise outcome, the store, the
arguments passed to the backend call (oldest first) and the world afterwards. -/
structure GameAction (σ ρ δ : Type) where
  outcome : Except (JsError δ) Unit
  store : GameStore ρ
  requested : List (String × String)
  world : σ

/-- Embedding of the game store's `playTile` (stores/game.js 196-218).
`playTileApi` is `gameApi.playTile` and `now` is `Date.now()`. Reading
`currentGame.value.id` without a current game raises a `TypeError` inside the
`try` block, which the `catch` block replaces like any other failure. -/
def GameStore.playTile {σ ρ δ : Type}
    (playTileApi : String → String → σ → Except (JsError δ) (HttpResponse δ) × σ)
    (now : Nat) (tile : GameTile) (s : GameStore ρ) (w : σ) : GameAction σ ρ δ :=
  if canPlayTile s = false then
    { outcome := Except.error (newError "当前不能出牌"), store := s, requested := [], world := w }
  else
    match s.currentGame with
    | none =>
      { outcome := Except.error (newError "出牌失败"), store := s, requested := [], world := w }
    | some game =>
      match playTileApi game.id tile.id w with
      | (Except.ok _, w1) =>
        { outcome := Except.ok ()
          store :=
            { s with
              playerHand := removeFirstWithId tile.id s.playerHand
              discardPile := s.discardPile ++ [tile]
              lastAction := some { type := "DISCARD", tile := some tile, tiles := none
                                   timestamp := now } }
          requested := [(game.id, tile.id)]
          world := w1 }
      | (Except.error _, w1) =>
        { outcome := Except.error (newError "出牌失败"), store := s
          requested := [(game.id, tile.id)], world := w1 }

/-- A tile of the bamboo suit, for examples. -/
def bamboo (id value : String) : GameTile :=
  { id := id, type := "bamboo", value := value, isMixed := false }

/-- A game store in play whose hand holds two tiles with id `t2`. -/
def playingStore : GameStore Unit :=
  { currentRoom := none, currentGame := some { id := "g1", status := "PLAYING", currentPlayer := 0 }
    playerHand := [bamboo "t1" "1", bamboo "t2" "2", bamboo "t3" "3", bamboo "t2" "9"]
    discardPile := [bamboo "t0" "5"], gameState := "PLAYING", currentPlayer := 0
    isSpectating := false, connectionStatus := "connected", lastAction := none }

/-- A transport stub that acknowledges every request; its world counts them. -/
def acknowledge {β : Type} : ApiRequest β → Nat →
    Except (JsError Unit) (HttpResponse Unit) × Nat :=
  fun _ n => (Except.ok { status := 200, data := none }, n + 1)

/-! ## The roster of the room store (`stores/room.js` 361-377) -/

/-- A player (`Player`, stores/game.js 24-35, with the flag `isOnline` that the
room store reads). -/
structure Player where
  id : String
  name : String
  avatar : String
  position : Nat
  status : String
  isSpectator : Bool
  isOnline : Bool
  totalScore : Int
  winsCount : Nat
  isReady : Bool
deriving DecidableEq, Repr

/-- A room as the room store holds it in `currentRoom`; `players` may be
missing. -/
structure Room where
  id : String
  roomNumber : String
  roomName : String
  creatorId : String
  maxPlayers : Nat
  currentPlayers : Nat
  roomStatus : String
  players : Option (List Player)
deriving DecidableEq, Repr

/-- Embedding of `addPlayer` (stores/room.js 361-370). -/
def addPlayer (player : Player) (s : RoomStore Room) : RoomStore Room :=
  match s.currentRoom with
  | none => s
  | some room =>
    match room.players with
    | none => s
    | some players =>
      match players.find? (fun p => decide (p.id = player.id)) with
      | some _ => s
      | none =>
        { s with
          currentRoom :=
            some { room with players := some (players ++ [player])
                             currentPlayers := (players ++ [player]).length } }

/-- Embedding of `removePlayer` (stores/room.js 372-377). -/
def removePlayer (playerId : String) (s : RoomStore Room) : RoomStore Room :=
  match s.currentRoom with
  | none => s
  | some room =>
    match room.players with
    | none => s
    | some players =>
      { s with
        currentRoom :=
          some { room with
                 players := some (players.filter (fun p => decide (p.id ≠ playerId)))
                 currentPlayers := (players.filter (fun p => decide (p.id ≠ playerId))).length } }

/-- The roster invariant: the room has a player list, the ids in it are pairwise
distinct and `currentPlayers` is its length. -/
def rosterInvariant (room : Room) : Bool :=
  match room.players with
  | some players =>
    decide ((players.map (fun p => p.id)).Nodup) && decide (room.currentPlayers = players.length)
  | none => false

/-- A player with the given id and name, online and not ready. -/
def seat (id name : String) (position : Nat) : Player :=
  { id := id, name := name, avatar := "", position := position, status := "ONLINE"
    isSpectator := false, isOnline := true, totalScore := 0, winsCount := 0, isReady := false }

/-- A room store whose current room holds three players. -/
def tableOfThree : RoomStore Room :=
  { currentRoom := some
      { id := "r1", roomNumber := "ABC123", roomName := "friends", creatorId := "p1"
        maxPlayers := 4, currentPlayers := 3, roomStatus := "WAITING"
        players := some [seat "p1" "Alice" 1, seat "p2" "Bob" 2, seat "p3" "Carol" 3] }
    roomList := [], isLoading := false, error := none, wsConnection := none
    currentPlayerId := "p1" }

/-! # Theorems -/

/-! ## Theorems: retry wrapper -/

theorem shouldRetry_iff {δ : Type} (e : JsError δ) :
    shouldRetry e = true ↔
      (e.response = none ∨
       (∃ r, e.response = some r ∧ 500 ≤ r.status ∧ r.status < 600) ∨
       e.code = some "ECONNABORTED" ∨
       e.message = "Network Error") := by
  unfold shouldRetry
  cases h : e.response <;> simp [or_assoc]

theorem invocations_backoffEvents (delay k : Nat) :
    invocations (backoffEvents delay k) = k + 1 := by
  induction k generalizing delay with
  | zero => rfl
  | succ k ih =>
    have h := ih (delay * 2)
    simp only [invocations] at h ⊢
    simp [backoffEvents, h]

theorem waits_backoffEvents (delay k : Nat) :
    waits (backoffEvents delay k) = (List.range k).map (fun i => delay * 2 ^ i) := by
  induction k generalizing delay with
  | zero => rfl
  | succ k ih =>
    rw [List.range_succ_eq_map]
    simp only [backoffEvents, waits, ih, List.map_cons, List.map_map, pow_zero, mul_one]
    congr 1
    apply List.map_congr_left
    intro i _
    simp [pow_succ, Nat.mul_assoc, Nat.mul_comm]

theorem retryRequest_ok {σ δ α : Type} (fn : σ → Except (JsError δ) α × σ)
    (setTimeout : Nat → σ → σ) (retries delay : Nat) (w w1 : σ) (value : α)
    (h : fn w = (Except.ok value, w1)) :
    retryRequest fn setTimeout retries delay w =
      { outcome := Except.ok value, events := [RetryEvent.invoke], world := w1 } := by
  cases retries <;> simp [retryRequest, h]

theorem retryRequest_give_up {σ δ α : Type} (fn : σ → Except (JsError δ) α × σ)
    (setTimeout : Nat → σ → σ) (retries delay : Nat) (w w1 : σ) (e : JsError δ)
    (h : fn w = (Except.error e, w1)) (hno : shouldRetry e = false) :
    retryRequest fn setTimeout retries delay w =
      { outcome := Except.error e, events := [RetryEvent.invoke], world := w1 } := by
  cases retries <;> simp [retryRequest, h, hno]

theorem retryRequest_exhausted {σ δ α : Type} (fn : σ → Except (JsError δ) α × σ)
    (setTimeout : Nat → σ → σ) (delay : Nat) (w w1 : σ) (e : JsError δ)
    (h : fn w = (Except.error e, w1)) :
    retryRequest fn setTimeout 0 delay w =
      { outcome := Except.error e, events := [RetryEvent.invoke], world := w1 } := by
  simp [retryRequest, h]

theorem retryRequest_retry {σ δ α : Type} (fn : σ → Except (JsError δ) α × σ)
    (setTimeout : Nat → σ → σ) (r delay : Nat) (w w1 : σ) (e : JsError δ)
    (h : fn w = (Except.error e, w1)) (hyes : shouldRetry e = true) :
    retryRequest fn setTimeout (r + 1) delay w =
      { outcome := (retryRequest fn setTimeout r (delay * 2) (setTimeout delay w1)).outcome
        events := RetryEvent.invoke :: RetryEvent.wait delay ::
          (retryRequest fn setTimeout r (delay * 2) (setTimeout delay w1)).events
        world := (retryRequest fn setTimeout r (delay * 2) (setTimeout delay w1)).world } := by
  conv_lhs => rw [retryRequest]
  simp only [h, hyes, if_true]

theorem retryRequest_backoff {σ δ α : Type} (fn : σ → Except (JsError δ) α × σ)
    (setTimeout : Nat → σ → σ) (k : Nat) :
    ∀ (retries delay : Nat) (w : σ) (value : α), k ≤ retries →
      (∀ i, i < k → ∃ e, attemptResult fn setTimeout i delay w = Except.error e ∧
        shouldRetry e = true) →
      attemptResult fn setTimeout k delay w = Except.ok value →
      (retryRequest fn setTimeout retries delay w).outcome = Except.ok value ∧
      (retryRequest fn setTimeout retries delay w).events = backoffEvents delay k := by
  induction k with
  | zero =>
    intro retries delay w value _ _ hok
    have h : fn w = (Except.ok value, (fn w).2) := by
      simp only [attemptResult, attemptWorld] at hok
      exact Prod.ext hok rfl
    rw [retryRequest_ok fn setTimeout retries delay w _ value h]
    exact ⟨rfl, rfl⟩
  | succ k ih =>
    intro retries delay w value hk hfail hok
    obtain ⟨e, he, hr⟩ := hfail 0 (Nat.succ_pos k)
    have h : fn w = (Except.error e, (fn w).2) := by
      simp only [attemptResult, attemptWorld] at he
      exact Prod.ext he rfl
    obtain ⟨r, rfl⟩ : ∃ r, retries = r + 1 := ⟨retries - 1, by omega⟩
    rw [retryRequest_retry fn setTimeout r delay w _ e h hr]
    have hrec := ih r (delay * 2) (setTimeout delay (fn w).2) value (by omega)
      (fun i hi => hfail (i + 1) (by omega)) hok
    exact ⟨hrec.1, by simp [backoffEvents, hrec.2]⟩

/-- C1: when the first `k` attempts of `fn` fail with retry-eligible errors and
attempt `k + 1` succeeds with `value`, and `k ≤ retries`, then `retryRequest`
resolves to `value` after exactly `k + 1` invocations, the waits are
`delay * 2 ^ i` for `i = 0 .. k - 1`, each placed between two consecutive
invocations; with the defaults (3, 1000) and `k = 2` the waits are 1000 then 2000. -/
theorem retryRequest_succeeds_after_failures {σ δ α : Type}
    (fn : σ → Except (JsError δ) α × σ) (setTimeout : Nat → σ → σ)
    (retries delay k : Nat) (w : σ) (value : α)
    (hk : k ≤ retries)
    (hfail : ∀ i, i < k → ∃ e, attemptResult fn setTimeout i delay w = Except.error e ∧
      shouldRetry e = true)
    (hok : attemptResult fn setTimeout k delay w = Except.ok value) :
    (retryRequest fn setTimeout retries delay w).outcome = Except.ok value ∧
    invocations (retryRequest fn setTimeout retries delay w).events = k + 1 ∧
    waits (retryRequest fn setTimeout retries delay w).events =
      (List.range k).map (fun i => delay * 2 ^ i) ∧
    (retryRequest fn setTimeout retries delay w).events = backoffEvents delay k ∧
    (retries = defaultRetries → delay = defaultDelay → k = 2 →
      waits (retryRequest fn setTimeout retries delay w).events = [1000, 2000]) := by
  obtain ⟨h1, h2⟩ := retryRequest_backoff fn setTimeout k retries delay w value hk hfail hok
  refine ⟨h1, ?_, ?_, h2, ?_⟩
  · rw [h2, invocations_backoffEvents]
  · rw [h2, waits_backoffEvents]
  · intro _ hd hk2
    rw [h2, hd, hk2]
    rfl

/-- Witness for C1: a transport that answers 503 twice and then succeeds, wrapped
with the default parameters. -/
theorem retryRequest_succeeds_after_failures_witness :
    (retryRequest (flaky 2 (statusError (δ := Unit) 503 "Service Unavailable") "created")
        (fun _ w => w) defaultRetries defaultDelay 0).outcome = Except.ok "created" ∧
    invocations (retryRequest (flaky 2 (statusError (δ := Unit) 503 "Service Unavailable") "created")
        (fun _ w => w) defaultRetries defaultDelay 0).events = 3 ∧
    waits (retryRequest (flaky 2 (statusError (δ := Unit) 503 "Service Unavailable") "created")
        (fun _ w => w) defaultRetries defaultDelay 0).events = [1000, 2000] := by
  have h := retryRequest_succeeds_after_failures
    (flaky 2 (statusError (δ := Unit) 503 "Service Unavailable") "created")
    (fun _ w => w) defaultRetries defaultDelay 2 0 "created" (by decide)
    (by
      intro i hi
      refine ⟨statusError 503 "Service Unavailable", ?_, by decide⟩
      interval_cases i <;> rfl)
    rfl
  exact ⟨h.1, h.2.1, h.2.2.2.2 rfl rfl rfl⟩

theorem invocations_retryRequest_le {σ δ α : Type} (fn : σ → Except (JsError δ) α × σ)
    (setTimeout : Nat → σ → σ) (retries : Nat) :
    ∀ (delay : Nat) (w : σ),
      invocations (retryRequest fn setTimeout retries delay w).events ≤ retries + 1 := by
  induction retries with
  | zero =>
    intro delay w
    rcases h : fn w with ⟨res, w1⟩
    cases res with
    | ok v => rw [retryRequest_ok fn setTimeout 0 delay w w1 v h]; simp [invocations]
    | error e => rw [retryRequest_exhausted fn setTimeout delay w w1 e h]; simp [invocations]
  | succ r ih =>
    intro delay w
    rcases h : fn w with ⟨res, w1⟩
    cases res with
    | ok v =>
      rw [retryRequest_ok fn setTimeout (r + 1) delay w w1 v h]
      simp [invocations]
    | error e =>
      cases hs : shouldRetry e with
      | false =>
        rw [retryRequest_give_up fn setTimeout (r + 1) delay w w1 e h hs]
        simp [invocations]
      | true =>
        rw [retryRequest_retry fn setTimeout r delay w w1 e h hs]
        have := ih (delay * 2) (setTimeout delay w1)
        simp only [invocations] at this ⊢
        have hne : RetryEvent.invoke ≠ RetryEvent.wait delay := fun hc => by cases hc
        rw [List.count_cons_self, List.count_cons_of_ne hne]
        omega

/-- C2: when the first attempt of `fn` fails with an error that is not
retry-eligible (for instance one carrying a response with status 400 and
neither the timeout code nor the network-failure message), `retryRequest`
invokes `fn` exactly once, waits for no delay and rejects with that very error,
whatever `retries` and `delay` are. -/
theorem retryRequest_rejects_ineligible_at_once {σ δ α : Type}
    (fn : σ → Except (JsError δ) α × σ) (setTimeout : Nat → σ → σ)
    (retries delay : Nat) (w w1 : σ) (e : JsError δ)
    (hfn : fn w = (Except.error e, w1))
    (hno : shouldRetry e = false ∨
      ∃ r, e.response = some r ∧ r.status = 400 ∧ e.code ≠ some "ECONNABORTED" ∧
        e.message ≠ "Network Error") :
    (retryRequest fn setTimeout retries delay w).outcome = Except.error e ∧
    (retryRequest fn setTimeout retries delay w).events = [RetryEvent.invoke] ∧
    invocations (retryRequest fn setTimeout retries delay w).events = 1 ∧
    waits (retryRequest fn setTimeout retries delay w).events = [] ∧
    (retryRequest fn setTimeout retries delay w).world = w1 := by
  have hs : shouldRetry e = false := by
    rcases hno with h | ⟨r, hr, h400, hc, hm⟩
    · exact h
    · cases hb : shouldRetry e with
      | false => rfl
      | true =>
        rcases (shouldRetry_iff e).1 hb with h | ⟨r2, hr2, h5, _⟩ | h | h
        · rw [hr] at h; cases h
        · rw [hr] at hr2; cases hr2; omega
        · exact absurd h hc
        · exact absurd h hm
  rw [retryRequest_give_up fn setTimeout retries delay w w1 e hfn hs]
  exact ⟨rfl, rfl, rfl, rfl, rfl⟩

/-- Witness for C2: a transport that always answers with `badRequest`. -/
theorem retryRequest_rejects_ineligible_at_once_witness :
    (retryRequest (flaky 5 badRequest "created") (fun _ w => w) 3 1000 0).outcome
      = Except.error badRequest ∧
    (retryRequest (flaky 5 badRequest "created") (fun _ w => w) 3 1000 0).events
      = [RetryEvent.invoke] :=
  have h := retryRequest_rejects_ineligible_at_once (flaky 5 badRequest "created")
    (fun _ w => w) 3 1000 0 1 badRequest rfl
    (Or.inr ⟨_, rfl, rfl, by decide, by decide⟩)
  ⟨h.1, h.2.1⟩

/-- C4 as stated fails: a call that always fails with status 503, wrapped with the
default parameters, is invoked 4 times, not at most 3. -/
theorem retryRequest_default_four_invocations :
    ¬ invocations (retryRequest (flaky 10 (statusError (δ := Unit) 503 "Service Unavailable") "created")
        (fun _ w => w) defaultRetries defaultDelay 0).events ≤ 3 := by
  decide

/-- C4 amended: with the default parameters (3 retries) `retryRequest` invokes
`fn` at most 4 times in total, the first attempt and at most 3 retries. -/
theorem retryRequest_default_at_most_four {σ δ α : Type}
    (fn : σ → Except (JsError δ) α × σ) (setTimeout : Nat → σ → σ) (w : σ) :
    invocations (retryRequest fn setTimeout defaultRetries defaultDelay w).events ≤ 4 :=
  invocations_retryRequest_le fn setTimeout defaultRetries defaultDelay w

/-- C5: `shouldRetry e` is true exactly when `e` has no response, or its
response status lies in `[500, 600)`, or its code is `ECONNABORTED`, or its
message is `Network Error`; so an error with a response whose status is outside
`[500, 600)` and with neither marker is not eligible, and `retryRequest` gives
up on it after the one attempt. -/
theorem shouldRetry_eligible_iff {δ : Type} (e : JsError δ) :
    (shouldRetry e = true ↔
      (e.response = none ∨
       (∃ r, e.response = some r ∧ 500 ≤ r.status ∧ r.status < 600) ∨
       e.code = some "ECONNABORTED" ∨
       e.message = "Network Error")) ∧
    (∀ r, e.response = some r → ¬ (500 ≤ r.status ∧ r.status < 600) →
      e.code ≠ some "ECONNABORTED" → e.message ≠ "Network Error" →
      shouldRetry e = false ∧
      ∀ (σ α : Type) (fn : σ → Except (JsError δ) α × σ) (setTimeout : Nat → σ → σ)
        (retries delay : Nat) (w w1 : σ), fn w = (Except.error e, w1) →
        (retryRequest fn setTimeout retries delay w).outcome = Except.error e ∧
        (retryRequest fn setTimeout retries delay w).events = [RetryEvent.invoke]) := by
  refine ⟨shouldRetry_iff e, ?_⟩
  intro r hr hstatus hc hm
  have hs : shouldRetry e = false := by
    cases hb : shouldRetry e with
    | false => rfl
    | true =>
      rcases (shouldRetry_iff e).1 hb with h | ⟨r2, hr2, h5⟩ | h | h
      · rw [hr] at h; cases h
      · rw [hr] at hr2; cases hr2; exact absurd h5 hstatus
      · exact absurd h hc
      · exact absurd h hm
  refine ⟨hs, ?_⟩
  intro σ α fn setTimeout retries delay w w1 hfn
  rw [retryRequest_give_up fn setTimeout retries delay w w1 e hfn hs]
  exact ⟨rfl, rfl⟩

/-- Witness for C5: a 503 error is eligible, the 400 error `badRequest` is not. -/
theorem shouldRetry_eligible_iff_witness :
    shouldRetry (statusError (δ := Unit) 503 "Service Unavailable") = true ∧
    shouldRetry badRequest = false :=
  ⟨(shouldRetry_eligible_iff (statusError (δ := Unit) 503 "Service Unavailable")).1.2
      (Or.inr (Or.inl ⟨_, rfl, by decide, by decide⟩)),
    ((shouldRetry_eligible_iff badRequest).2 _ rfl (by decide) (by decide) (by decide)).1⟩

/-! ## Theorems: room API client -/

theorem responseFulfilled_business_failure {δ : Type} (response : HttpResponse δ)
    (envelope : Envelope δ) (hdata : response.data = some envelope)
    (hcode : envelope.code ≠ some 200) :
    (responseFulfilled response).1 =
      Except.error (newError (orDefault envelope.message "请求失败")) ∧
    shouldRetry (newError (δ := δ) (orDefault envelope.message "请求失败")) = true := by
  constructor
  · simp [responseFulfilled, hdata, hcode]
  · simp [shouldRetry, newError]

/-- C3 fails on the code: the rejection that the response interceptor makes for
an HTTP-200 response with a business code other than 200 is a plain `Error`
without `response`, which `shouldRetry` takes for a network failure. With a
transport that always answers "room is full" (HTTP 200, code 4001),
`createRoom` sends 4 requests, waits 1000, 2000 and 4000 ms between them,
raises the notice 4 times and only then rejects. -/
theorem createRoom_retries_business_failure :
    (∀ (response : HttpResponse Unit) (envelope : Envelope Unit),
      response.data = some envelope → envelope.code ≠ some 200 →
      ∃ e, (responseFulfilled response).1 = Except.error e ∧ shouldRetry e = true) ∧
    (createRoom (businessAnswer roomFull) (fun _ n => n) "room" freshApiWorld).outcome =
      Except.error (newError "房间已满") ∧
    ((createRoom (businessAnswer roomFull) (fun _ n => n) "room" freshApiWorld).world.sent.map
      (fun request => (request.method, request.url))) =
      [("post", "/rooms"), ("post", "/rooms"), ("post", "/rooms"), ("post", "/rooms")] ∧
    (createRoom (businessAnswer roomFull) (fun _ n => n) "room" freshApiWorld).world.net = 4 ∧
    invocations
      (createRoom (businessAnswer roomFull) (fun _ n => n) "room" freshApiWorld).events = 4 ∧
    waits (createRoom (businessAnswer roomFull) (fun _ n => n) "room" freshApiWorld).events =
      [1000, 2000, 4000] ∧
    (createRoom (businessAnswer roomFull) (fun _ n => n) "room" freshApiWorld).world.notices =
      ["房间已满", "房间已满", "房间已满", "房间已满"] := by
  refine ⟨?_, rfl, by decide, by decide, by decide, by decide, by decide⟩
  intro response envelope hdata hcode
  exact ⟨_, responseFulfilled_business_failure response envelope hdata hcode⟩

/-! ## Theorems: association lists -/

theorem mapGet_mapSet_self {κ ν : Type} [DecidableEq κ] (key : κ) (value : ν)
    (m : List (κ × ν)) : mapGet key (mapSet key value m) = some value := by
  induction m with
  | nil => simp [mapSet, mapGet]
  | cons entry rest ih =>
    obtain ⟨k, v⟩ := entry
    by_cases hk : k = key
    · simp [mapSet, mapGet, hk]
    · simp [mapSet, mapGet, hk, ih]

theorem mapGet_mapSet_other {κ ν : Type} [DecidableEq κ] (key other : κ) (value : ν)
    (m : List (κ × ν)) (h : other ≠ key) :
    mapGet other (mapSet key value m) = mapGet other m := by
  induction m with
  | nil => simp [mapSet, mapGet, Ne.symm h]
  | cons entry rest ih =>
    obtain ⟨k, v⟩ := entry
    by_cases hk : k = key
    · subst hk
      simp [mapSet, mapGet, Ne.symm h]
    · by_cases ho : k = other
      · subst ho
        simp [mapSet, mapGet, hk]
      · simp [mapSet, mapGet, hk, ho, ih]

theorem mapGet_mapDelete_self {κ ν : Type} [DecidableEq κ] (key : κ) (m : List (κ × ν)) :
    mapGet key (mapDelete key m) = none := by
  induction m with
  | nil => rfl
  | cons entry rest ih =>
    obtain ⟨k, v⟩ := entry
    by_cases hk : k = key
    · simp [mapDelete, hk, ih]
    · simp [mapDelete, hk, mapGet, ih]

theorem mapGet_mapDelete_other {κ ν : Type} [DecidableEq κ] (key other : κ)
    (m : List (κ × ν)) (h : other ≠ key) :
    mapGet other (mapDelete key m) = mapGet other m := by
  induction m with
  | nil => rfl
  | cons entry rest ih =>
    obtain ⟨k, v⟩ := entry
    by_cases hk : k = key
    · subst hk
      simp [mapDelete, mapGet, Ne.symm h, ih]
    · by_cases ho : k = other
      · subst ho
        simp [mapDelete, hk, mapGet]
      · simp [mapDelete, hk, mapGet, ho, ih]

theorem mapDelete_no_key {κ ν : Type} [DecidableEq κ] (key : κ) (m : List (κ × ν)) :
    ∀ entry ∈ mapDelete key m, entry.1 ≠ key := by
  induction m with
  | nil => intro entry he; cases he
  | cons head rest ih =>
    obtain ⟨k, v⟩ := head
    intro entry he
    by_cases hk : k = key
    · simp only [mapDelete, hk, if_true] at he
      exact ih entry he
    · simp only [mapDelete, hk, if_false] at he
      rcases List.mem_cons.1 he with h | h
      · rw [h]; exact hk
      · exact ih entry h

theorem filter_key_mapSet_of_absent {κ ν : Type} [DecidableEq κ] (key : κ) (value : ν)
    (m : List (κ × ν)) (h : ∀ entry ∈ m, entry.1 ≠ key) :
    (mapSet key value m).filter (fun entry => decide (entry.1 = key)) = [(key, value)] := by
  induction m with
  | nil => simp [mapSet]
  | cons entry rest ih =>
    obtain ⟨k, v⟩ := entry
    have hk : k ≠ key := h (k, v) (List.mem_cons_self _ _)
    have hrest := ih (fun e he => h e (List.mem_cons_of_mem _ he))
    simp [mapSet, hk, List.filter_cons, hrest]

/-! ## Theorems: connection registry -/

theorem length_updateSocket (handle : Nat) (f : Socket → Socket) (sockets : List Socket) :
    (updateSocket handle f sockets).length = sockets.length := by
  simp [updateSocket]

theorem connect_of_registered (roomNumber : String) (w : WsWorld) (h1 : Nat)
    (hreg : mapGet roomNumber w.connections = some h1) :
    connect roomNumber w =
      (w.sockets.length,
        { connections := mapSet roomNumber w.sockets.length (mapDelete roomNumber w.connections)
          sockets := updateSocket h1 Socket.close w.sockets ++
            [{ url := wsUrl w.wsBaseUrl roomNumber, roomNumber := roomNumber
               readyState := ReadyState.CONNECTING, frames := [] }]
          calls := w.calls ++ [WsCall.close h1] ++ [WsCall.create w.sockets.length]
          wsBaseUrl := w.wsBaseUrl }) := by
  simp [connect, mapHas, disconnect, hreg, length_updateSocket]

theorem isLive_close (s : Socket) : s.close.isLive = false := by
  cases hs : s.readyState <;> simp [Socket.close, Socket.isLive, hs]

/-- C6: when a handle `h1` is registered for the key at the time of
`connect(key, handlers)`, the registry calls `close()` on `h1` and only then
creates the new handle `h2`; the call returns `h2`, a new socket in state
`CONNECTING`; afterwards the map sends the key to `h2` and holds no other entry
for the key, `h1` is no longer live, and the entries of all other keys are as
before. -/
theorem connect_closes_registered_then_opens (roomNumber : String) (w : WsWorld) (h1 : Nat)
    (hreg : mapGet roomNumber w.connections = some h1) :
    (connect roomNumber w).2.calls =
      w.calls ++ [WsCall.close h1, WsCall.create (connect roomNumber w).1] ∧
    (connect roomNumber w).1 = w.sockets.length ∧
    (connect roomNumber w).2.sockets[(connect roomNumber w).1]? =
      some { url := wsUrl w.wsBaseUrl roomNumber, roomNumber := roomNumber
             readyState := ReadyState.CONNECTING, frames := [] } ∧
    mapGet roomNumber (connect roomNumber w).2.connections = some (connect roomNumber w).1 ∧
    (connect roomNumber w).2.connections.filter (fun entry => decide (entry.1 = roomNumber)) =
      [(roomNumber, (connect roomNumber w).1)] ∧
    (∀ other, other ≠ roomNumber →
      mapGet other (connect roomNumber w).2.connections = mapGet other w.connections) ∧
    (h1 < w.sockets.length →
      (connect roomNumber w).1 ≠ h1 ∧
      ∃ s, (connect roomNumber w).2.sockets[h1]? = some s ∧ s.isLive = false) := by
  rw [connect_of_registered roomNumber w h1 hreg]
  refine ⟨by simp, rfl, ?_, ?_, ?_, ?_, ?_⟩
  · rw [List.getElem?_append_right (by simp [length_updateSocket])]
    simp [length_updateSocket]
  · exact mapGet_mapSet_self _ _ _
  · exact filter_key_mapSet_of_absent _ _ _ (mapDelete_no_key _ _)
  · intro other ho
    simp only
    rw [mapGet_mapSet_other _ _ _ _ ho, mapGet_mapDelete_other _ _ _ ho]
  · intro hh
    refine ⟨by simp; omega, ?_⟩
    obtain ⟨s0, hs0⟩ : ∃ s0, w.sockets[h1]? = some s0 := ⟨w.sockets[h1], by simp [hh]⟩
    refine ⟨s0.close, ?_, isLive_close s0⟩
    rw [List.getElem?_append_left (by simp [length_updateSocket, hh])]
    simp [updateSocket, List.getElem?_modify, hs0]

/-- Witness for C6: a second `connect` for room 1001 while the first handle is
registered. -/
theorem connect_closes_registered_then_opens_witness :
    (connect "1001" (wsRun [WsOp.connect "1001", WsOp.connect "1002"])).2.calls =
      [WsCall.create 0, WsCall.create 1, WsCall.close 0, WsCall.create 2] ∧
    mapGet "1001" (connect "1001" (wsRun [WsOp.connect "1001", WsOp.connect "1002"])).2.connections
      = some 2 ∧
    mapGet "1002" (connect "1001" (wsRun [WsOp.connect "1001", WsOp.connect "1002"])).2.connections
      = some 1 := by
  have h := connect_closes_registered_then_opens "1001"
    (wsRun [WsOp.connect "1001", WsOp.connect "1002"]) 0 (by decide)
  refine ⟨?_, ?_, ?_⟩
  · rw [h.1]; decide
  · rw [h.2.2.2.1]; decide
  · rw [h.2.2.2.2.2.1 "1002" (by decide)]; decide

/-- C7 fails on the code: after `connect`, `connect` again for the same room
number, the close event of the first socket (whose `onclose` deletes the room
number although the map already holds the second socket) and a third `connect`,
the second and the third socket are both live: the third `connect` found no
entry and closed nothing. -/
theorem registry_two_live_handles :
    mapGet "1001" (wsRun [WsOp.connect "1001", WsOp.connect "1001"]).connections = some 1 ∧
    mapGet "1001"
      (wsRun [WsOp.connect "1001", WsOp.connect "1001", WsOp.socketClose 0]).connections = none ∧
    liveHandles "1001"
      (wsRun [WsOp.connect "1001", WsOp.connect "1001", WsOp.socketClose 0]) = [1] ∧
    liveHandles "1001"
      (wsRun [WsOp.connect "1001", WsOp.connect "1001", WsOp.socketClose 0,
        WsOp.connect "1001"]) = [1, 2] ∧
    ¬ (liveHandles "1001"
      (wsRun [WsOp.connect "1001", WsOp.connect "1001", WsOp.socketClose 0,
        WsOp.connect "1001"])).length ≤ 1 := by
  decide

/-- C8: `sendMessage(key, payload)` returns `false` and changes nothing when no
handle is registered for the key or the registered socket is not `OPEN`;
otherwise it returns `true` and hands exactly one frame, the serialised
payload, to that socket and to no other; the map is unchanged in both cases. -/
theorem sendMessage_sends_iff_open {μ : Type} (stringify : μ → String) (roomNumber : String)
    (message : μ) (w : WsWorld) :
    (mapGet roomNumber w.connections = none →
      sendMessage stringify roomNumber message w = (false, w)) ∧
    (∀ ws s, mapGet roomNumber w.connections = some ws → w.sockets[ws]? = some s →
      s.readyState ≠ ReadyState.OPEN →
      sendMessage stringify roomNumber message w = (false, w)) ∧
    (∀ ws s, mapGet roomNumber w.connections = some ws → w.sockets[ws]? = some s →
      s.readyState = ReadyState.OPEN →
      (sendMessage stringify roomNumber message w).1 = true ∧
      (sendMessage stringify roomNumber message w).2.calls =
        w.calls ++ [WsCall.send ws (stringify message)] ∧
      (sendMessage stringify roomNumber message w).2.sockets[ws]? =
        some { s with frames := s.frames ++ [stringify message] } ∧
      (∀ other, other ≠ ws →
        (sendMessage stringify roomNumber message w).2.sockets[other]? =
          w.sockets[other]?)) ∧
    ((sendMessage stringify roomNumber message w).1 = true ↔
      ∃ ws s, mapGet roomNumber w.connections = some ws ∧ w.sockets[ws]? = some s ∧
        s.readyState = ReadyState.OPEN) ∧
    (sendMessage stringify roomNumber message w).2.connections = w.connections := by
  refine ⟨?_, ?_, ?_, ?_, ?_⟩
  · intro h
    simp [sendMessage, h]
  · intro ws s h1 h2 h3
    simp [sendMessage, h1, h2, h3]
  · intro ws s h1 h2 h3
    refine ⟨by simp [sendMessage, h1, h2, h3], by simp [sendMessage, h1, h2, h3], ?_, ?_⟩
    · simp [sendMessage, h1, h2, h3, updateSocket, List.getElem?_modify, h2]
    · intro other ho
      simp [sendMessage, h1, h2, h3, updateSocket, List.getElem?_modify, Ne.symm ho]
  · constructor
    · intro h
      cases h1 : mapGet roomNumber w.connections with
      | none => simp [sendMessage, h1] at h
      | some ws =>
        cases h2 : w.sockets[ws]? with
        | none => simp [sendMessage, h1, h2] at h
        | some s =>
          by_cases h3 : s.readyState = ReadyState.OPEN
          · exact ⟨ws, s, rfl, h2, h3⟩
          · simp [sendMessage, h1, h2, h3] at h
    · rintro ⟨ws, s, h1, h2, h3⟩
      simp [sendMessage, h1, h2, h3]
  · cases h1 : mapGet roomNumber w.connections with
    | none => simp [sendMessage, h1]
    | some ws =>
      cases h2 : w.sockets[ws]? with
      | none => simp [sendMessage, h1, h2]
      | some s =>
        by_cases h3 : s.readyState = ReadyState.OPEN
        · simp [sendMessage, h1, h2, h3]
        · simp [sendMessage, h1, h2, h3]

/-! ### Registered handles exist in every reachable state -/

theorem mem_of_mem_mapDelete {κ ν : Type} [DecidableEq κ] (key : κ) (m : List (κ × ν))
    (entry : κ × ν) (h : entry ∈ mapDelete key m) : entry ∈ m := by
  induction m with
  | nil => cases h
  | cons head rest ih =>
    obtain ⟨k, v⟩ := head
    by_cases hk : k = key
    · simp only [mapDelete, hk, if_true] at h
      exact List.mem_cons_of_mem _ (ih h)
    · simp only [mapDelete, hk, if_false] at h
      rcases List.mem_cons.1 h with h | h
      · rw [h]; exact List.mem_cons_self _ _
      · exact List.mem_cons_of_mem _ (ih h)

theorem mem_mapSet {κ ν : Type} [DecidableEq κ] (key : κ) (value : ν) (m : List (κ × ν))
    (entry : κ × ν) (h : entry ∈ mapSet key value m) : entry = (key, value) ∨ entry ∈ m := by
  induction m with
  | nil =>
    simp only [mapSet, List.mem_singleton] at h
    exact Or.inl h
  | cons head rest ih =>
    obtain ⟨k, v⟩ := head
    by_cases hk : k = key
    · simp only [mapSet, hk, if_true] at h
      rcases List.mem_cons.1 h with h | h
      · exact Or.inl h
      · exact Or.inr (List.mem_cons_of_mem _ h)
    · simp only [mapSet, hk, if_false] at h
      rcases List.mem_cons.1 h with h | h
      · rw [h]; exact Or.inr (List.mem_cons_self _ _)
      · rcases ih h with h | h
        · exact Or.inl h
        · exact Or.inr (List.mem_cons_of_mem _ h)

theorem mem_of_mapGet {κ ν : Type} [DecidableEq κ] (key : κ) (value : ν) (m : List (κ × ν))
    (h : mapGet key m = some value) : (key, value) ∈ m := by
  induction m with
  | nil => cases h
  | cons head rest ih =>
    obtain ⟨k, v⟩ := head
    by_cases hk : k = key
    · simp only [mapGet, hk, if_true, Option.some.injEq] at h
      rw [hk, h]
      exact List.mem_cons_self _ _
    · simp only [mapGet, hk, if_false] at h
      exact List.mem_cons_of_mem _ (ih h)

theorem registered_disconnect (roomNumber : String) (w : WsWorld) (hw : w.Registered) :
    (disconnect roomNumber w).Registered := by
  unfold disconnect
  cases hget : mapGet roomNumber w.connections with
  | none => exact hw
  | some ws =>
    intro entry he
    simp only [length_updateSocket]
    exact hw entry (mem_of_mem_mapDelete _ _ _ he)

theorem registered_connect (roomNumber : String) (w : WsWorld) (hw : w.Registered) :
    (connect roomNumber w).2.Registered := by
  have h1 : (if mapHas roomNumber w.connections then disconnect roomNumber w else w).Registered := by
    split
    · exact registered_disconnect roomNumber w hw
    · exact hw
  intro entry he
  simp only [connect, List.length_append, List.length_singleton] at he ⊢
  rcases mem_mapSet _ _ _ _ he with h | h
  · rw [h]; exact Nat.lt_succ_self _
  · exact Nat.lt_succ_of_lt (h1 entry h)

theorem registered_foldl_disconnect (keys : List String) (w : WsWorld) (hw : w.Registered) :
    (keys.foldl (fun acc roomNumber => disconnect roomNumber acc) w).Registered := by
  induction keys generalizing w with
  | nil => exact hw
  | cons k rest ih => exact ih (disconnect k w) (registered_disconnect k w hw)

theorem registered_wsStep (w : WsWorld) (op : WsOp) (hw : w.Registered) :
    (wsStep w op).Registered := by
  cases op with
  | connect roomNumber => exact registered_connect roomNumber w hw
  | disconnect roomNumber => exact registered_disconnect roomNumber w hw
  | disconnectAll => exact registered_foldl_disconnect _ w hw
  | socketOpen handle =>
    intro entry he
    simp only [wsStep, socketOpen, length_updateSocket] at he ⊢
    exact hw entry he
  | socketClose handle =>
    simp only [wsStep, socketClose]
    cases hget : w.sockets[handle]? with
    | none => exact hw
    | some s =>
      by_cases hc : s.readyState = ReadyState.CLOSED
      · simpa [hc] using hw
      · intro entry he
        simp only [hc, if_false, length_updateSocket] at he ⊢
        exact hw entry (mem_of_mem_mapDelete _ _ _ he)

theorem registered_wsRun (ops : List WsOp) : (wsRun ops).Registered := by
  have h : ∀ (ops : List WsOp) (w : WsWorld), w.Registered → (ops.foldl wsStep w).Registered := by
    intro ops
    induction ops with
    | nil => intro w hw; exact hw
    | cons op rest ih => intro w hw; exact ih (wsStep w op) (registered_wsStep w op hw)
  exact h ops WsWorld.empty (fun entry he => by cases he)

theorem wsRun_registered_handle_exists (ops : List WsOp) (roomNumber : String) (handle : Nat)
    (h : mapGet roomNumber (wsRun ops).connections = some handle) :
    handle < (wsRun ops).sockets.length :=
  registered_wsRun ops (roomNumber, handle) (mem_of_mapGet _ _ _ h)

/-- Witness for C8: in a registry where the socket of room 1001 is open and the
socket of room 1002 is still connecting, a message for 1001 is sent as one
frame, a message for 1002 or for an unknown room is not sent. -/
theorem sendMessage_sends_iff_open_witness :
    (sendMessage id "1001" "ping" openRegistry).1 = true ∧
    (sendMessage id "1001" "ping" openRegistry).2.calls =
      openRegistry.calls ++ [WsCall.send 0 "ping"] ∧
    sendMessage id "1002" "ping" openRegistry = (false, openRegistry) ∧
    sendMessage id "1003" "ping" openRegistry = (false, openRegistry) :=
  have h := (sendMessage_sends_iff_open id "1001" "ping" openRegistry).2.2.1 0
    { url := "ws://localhost:9914/ws/room/1001", roomNumber := "1001"
      readyState := ReadyState.OPEN, frames := [] } (by decide) (by decide) rfl
  ⟨h.1, h.2.1,
    (sendMessage_sends_iff_open id "1002" "ping" openRegistry).2.1 1
      { url := "ws://localhost:9914/ws/room/1002", roomNumber := "1002"
        readyState := ReadyState.CONNECTING, frames := [] } (by decide) (by decide) (by decide),
    (sendMessage_sends_iff_open id "1003" "ping" openRegistry).1 (by decide)⟩

/-! ## Theorems: chat history -/

theorem length_truncateHistory_le (roomMessages : List ChatMessage) :
    (truncateHistory roomMessages).length ≤ historyCap := by
  unfold truncateHistory
  split
  · rw [List.length_drop]; omega
  · omega

theorem mapGet_handleMessage_current (freshId : String) (now : Nat) (messageData : MessageData)
    (s : ChatStore) (hroom : s.currentRoomId ≠ "") :
    mapGet s.currentRoomId (handleMessage freshId now messageData s).messageHistory =
      some (truncateHistory ((mapGet s.currentRoomId s.messageHistory).getD [] ++
        [buildMessage freshId now messageData])) := by
  simp only [handleMessage, hroom, ne_eq, not_false_eq_true, if_true]
  rw [mapGet_mapSet_self]
  cases hget : mapGet s.currentRoomId s.messageHistory with
  | none => simp [mapHas, hget, mapGet_mapSet_self]
  | some ms => simp [mapHas, hget]

theorem mapGet_handleMessage_other (freshId : String) (now : Nat) (messageData : MessageData)
    (s : ChatStore) (other : String) (hother : other ≠ s.currentRoomId) :
    mapGet other (handleMessage freshId now messageData s).messageHistory =
      mapGet other s.messageHistory := by
  by_cases hroom : s.currentRoomId = ""
  · simp [handleMessage, hroom]
  · simp only [handleMessage, hroom, ne_eq, not_false_eq_true, if_true]
    rw [mapGet_mapSet_other _ _ _ _ hother]
    split
    · rfl
    · exact mapGet_mapSet_other _ _ _ _ hother

theorem currentRoomId_handleMessage (freshId : String) (now : Nat) (messageData : MessageData)
    (s : ChatStore) :
    (handleMessage freshId now messageData s).currentRoomId = s.currentRoomId := by
  by_cases hroom : s.currentRoomId = ""
  · simp [handleMessage, hroom]
  · simp [handleMessage, hroom]

/-- C9: when the current room's history holds exactly 100 messages, handling
one more incoming message leaves exactly 100: the former messages 2 to 100 in
their order, followed by the new message. In every state, the history of the
current room after `handleMessage` has at most 100 messages, and the histories
of the other rooms are not touched. -/
theorem handleMessage_keeps_latest_hundred (freshId : String) (now : Nat)
    (messageData : MessageData) (s : ChatStore) :
    (∀ ms, s.currentRoomId ≠ "" → mapGet s.currentRoomId s.messageHistory = some ms →
      ms.length = 100 →
      mapGet s.currentRoomId (handleMessage freshId now messageData s).messageHistory =
        some (ms.drop 1 ++ [buildMessage freshId now messageData]) ∧
      currentMessages (handleMessage freshId now messageData s) =
        ms.drop 1 ++ [buildMessage freshId now messageData] ∧
      (currentMessages (handleMessage freshId now messageData s)).length = 100) ∧
    (currentMessages (handleMessage freshId now messageData s)).length ≤ 100 ∧
    (∀ other, other ≠ s.currentRoomId →
      mapGet other (handleMessage freshId now messageData s).messageHistory =
        mapGet other s.messageHistory) := by
  refine ⟨?_, ?_, ?_⟩
  · intro ms hroom hget hlen
    have hcur := mapGet_handleMessage_current freshId now messageData s hroom
    have htrunc : truncateHistory (ms ++ [buildMessage freshId now messageData]) =
        ms.drop 1 ++ [buildMessage freshId now messageData] := by
      have hpos : 1 ≤ ms.length := by omega
      simp only [truncateHistory, historyCap, List.length_append, List.length_singleton, hlen]
      simp [List.drop_append_of_le_length hpos]
    rw [hget, Option.getD_some, htrunc] at hcur
    refine ⟨hcur, ?_, ?_⟩
    · simp [currentMessages, currentRoomId_handleMessage, hroom, hcur]
    · simp [currentMessages, currentRoomId_handleMessage, hroom, hcur, hlen]
  · by_cases hroom : s.currentRoomId = ""
    · simp [currentMessages, currentRoomId_handleMessage, hroom]
    · have hcur := mapGet_handleMessage_current freshId now messageData s hroom
      simp only [currentMessages, currentRoomId_handleMessage, hroom, if_false, hcur,
        Option.getD_some]
      exact length_truncateHistory_le _
  · intro other hother
    exact mapGet_handleMessage_other freshId now messageData s other hother

/-- Witness for C9: a room history of 100 messages with ids 0 to 99 receives one
more message; the message with id 0 is evicted. -/
theorem handleMessage_keeps_latest_hundred_witness :
    currentMessages (handleMessage "m100" 7 sampleData
        (sampleStore ((List.range 100).map (fun i => sampleMessage (toString i))))) =
      (List.range' 1 99).map (fun i => sampleMessage (toString i)) ++
        [buildMessage "m100" 7 sampleData] := by
  have h := (handleMessage_keeps_latest_hundred "m100" 7 sampleData
    (sampleStore ((List.range 100).map (fun i => sampleMessage (toString i))))).1
    ((List.range 100).map (fun i => sampleMessage (toString i)))
    (by decide) (by simp [sampleStore, mapGet]) (by simp)
  rw [h.2.1]
  simp [List.range_eq_range', ← List.map_drop]

/-! ## Theorems: message validation -/

theorem listIncludes_iff_isInfix (w t : List Char) : listIncludes w t = true ↔ w <:+: t := by
  induction t with
  | nil => simp [listIncludes, List.infix_nil]
  | cons c cs ih =>
    rw [listIncludes, Bool.or_eq_true, ih, List.infix_cons_iff, List.isPrefixOf_iff_prefix]

theorem jsTrim_eq_empty_iff (s : String) :
    jsTrim s = "" ↔ ∀ c ∈ s.data, isWhitespace c = true := by
  have hstr : jsTrim s = "" ↔
      ((s.data.dropWhile isWhitespace).reverse.dropWhile isWhitespace).reverse = [] := by
    constructor
    · intro h
      exact congrArg String.data h
    · intro h
      exact String.ext h
  rw [hstr, List.reverse_eq_nil_iff, List.dropWhile_eq_nil_iff]
  constructor
  · intro h
    have hnil : s.data.dropWhile isWhitespace = [] := by
      by_contra hne
      have hhead := List.head_dropWhile_not isWhitespace s.data hne
      have hmem : (s.data.dropWhile isWhitespace).head hne ∈
          (s.data.dropWhile isWhitespace).reverse :=
        List.mem_reverse.2 (List.head_mem hne)
      rw [h _ hmem] at hhead
      cases hhead
    exact List.dropWhile_eq_nil_iff.1 hnil
  · intro h x hx
    have hnil : s.data.dropWhile isWhitespace = [] := List.dropWhile_eq_nil_iff.2 h
    rw [hnil] at hx
    cases hx

theorem toLower_eq_iff_of_not_ascii (c d : Char) (hd : 128 ≤ d.toNat) :
    Char.toLower c = d ↔ c = d := by
  by_cases hup : c.toNat ≥ 65 ∧ c.toNat ≤ 90
  · have hc : c = Char.ofNat c.toNat := (Char.ofNat_toNat c).symm
    obtain ⟨h1, h2⟩ := hup
    have hlow : (Char.toLower c).toNat < 128 := by
      generalize c.toNat = n at hc h1 h2
      subst hc
      interval_cases n <;> decide
    constructor
    · intro h
      rw [h] at hlow
      omega
    · intro h
      rw [h] at h2
      omega
  · simp [Char.toLower, hup]

theorem isPrefixOf_map_toLower (w : List Char) (hw : ∀ d ∈ w, 128 ≤ d.toNat) :
    ∀ t : List Char, w.isPrefixOf (t.map Char.toLower) = w.isPrefixOf t := by
  induction w with
  | nil => intro t; simp
  | cons d ds ih =>
    intro t
    cases t with
    | nil => simp
    | cons c cs =>
      have hd : 128 ≤ d.toNat := hw d (List.mem_cons_self _ _)
      have hds := ih (fun x hx => hw x (List.mem_cons_of_mem _ hx)) cs
      simp only [List.map_cons, List.isPrefixOf_cons₂, hds]
      congr 1
      have h := toLower_eq_iff_of_not_ascii c d hd
      by_cases hcd : c = d
      · subst hcd
        have h2 : Char.toLower c = c := h.2 rfl
        simp [h2]
      · have h2 : ¬ Char.toLower c = d := fun hx => hcd (h.1 hx)
        have h3 : ¬ d = Char.toLower c := fun hx => h2 hx.symm
        have h4 : ¬ d = c := fun hx => hcd hx.symm
        simp [h3, h4]

theorem listIncludes_map_toLower (w : List Char) (hw : ∀ d ∈ w, 128 ≤ d.toNat) :
    ∀ t : List Char, listIncludes w (t.map Char.toLower) = listIncludes w t := by
  intro t
  induction t with
  | nil => simp [listIncludes]
  | cons c cs ih =>
    have h := isPrefixOf_map_toLower w hw (c :: cs)
    simp only [List.map_cons] at h
    simp only [List.map_cons, listIncludes, h, ih]

theorem sensitiveWords_caseless :
    ∀ word ∈ sensitiveWords, toLowerCase word = word ∧ ∀ d ∈ word.data, 128 ≤ d.toNat := by
  decide

theorem includes_toLowerCase (s word : String) (hword : word ∈ sensitiveWords) :
    includes (toLowerCase s) (toLowerCase word) = includes s word := by
  obtain ⟨h1, h2⟩ := sensitiveWords_caseless word hword
  rw [h1]
  exact listIncludes_map_toLower word.data h2 s.data

theorem any_sensitive_eq (s : String) :
    sensitiveWords.any (fun word => includes (toLowerCase s) (toLowerCase word)) =
      sensitiveWords.any (fun word => includes s word) := by
  have h : ∀ l : List String, (∀ word ∈ l, word ∈ sensitiveWords) →
      l.any (fun word => includes (toLowerCase s) (toLowerCase word)) =
        l.any (fun word => includes s word) := by
    intro l
    induction l with
    | nil => intro _; rfl
    | cons a rest ih =>
      intro hl
      simp only [List.any_cons]
      rw [includes_toLowerCase s a (hl a (List.mem_cons_self _ _)),
        ih (fun word hword => hl word (List.mem_cons_of_mem _ hword))]
  exact h sensitiveWords (fun _ hword => hword)

/-- C10: `validateMessage s` accepts exactly when `s` is neither empty nor made
of white space only, has length at most 100 (the `length` of JavaScript, in
UTF-16 code units) and contains none of the five blocked terms; so every string
that contains a blocked term is rejected. -/
theorem validateMessage_accepts_iff (s : String) :
    ((validateMessage s).valid = true ↔
      (s ≠ "" ∧ ¬ (∀ c ∈ s.data, isWhitespace c = true)) ∧
      jsLength s ≤ 100 ∧
      ∀ word ∈ sensitiveWords, ¬ word.data <:+: s.data) ∧
    (∀ word ∈ sensitiveWords, word.data <:+: s.data → (validateMessage s).valid = false) := by
  have hiff : (validateMessage s).valid = true ↔
      (s ≠ "" ∧ ¬ (∀ c ∈ s.data, isWhitespace c = true)) ∧
      jsLength s ≤ 100 ∧
      ∀ word ∈ sensitiveWords, ¬ word.data <:+: s.data := by
    unfold validateMessage
    rw [any_sensitive_eq]
    have htrim := jsTrim_eq_empty_iff s
    have hany : sensitiveWords.any (fun word => includes s word) = true ↔
        ∃ word ∈ sensitiveWords, word.data <:+: s.data := by
      rw [List.any_eq_true]
      constructor
      · rintro ⟨word, hw, hi⟩
        exact ⟨word, hw, (listIncludes_iff_isInfix _ _).1 hi⟩
      · rintro ⟨word, hw, hi⟩
        exact ⟨word, hw, (listIncludes_iff_isInfix _ _).2 hi⟩
    by_cases h1 : s = "" ∨ jsTrim s = ""
    · rw [if_pos h1]
      constructor
      · intro h; cases h
      · rintro ⟨⟨hne, hws⟩, _⟩
        rcases h1 with h | h
        · exact absurd h hne
        · exact absurd (htrim.1 h) hws
    · rw [if_neg h1]
      have h1' : s ≠ "" ∧ ¬ (∀ c ∈ s.data, isWhitespace c = true) :=
        ⟨fun h => h1 (Or.inl h), fun h => h1 (Or.inr (htrim.2 h))⟩
      by_cases h2 : jsLength s > 100
      · rw [if_pos h2]
        constructor
        · intro h; cases h
        · rintro ⟨_, hlen, _⟩
          omega
      · rw [if_neg h2]
        by_cases h3 : sensitiveWords.any (fun word => includes s word) = true
        · rw [if_pos h3]
          constructor
          · intro h; cases h
          · rintro ⟨_, _, hnone⟩
            obtain ⟨word, hw, hi⟩ := hany.1 h3
            exact absurd hi (hnone word hw)
        · rw [if_neg h3]
          refine ⟨fun _ => ⟨h1', by omega, ?_⟩, fun _ => rfl⟩
          intro word hw hi
          exact h3 (hany.2 ⟨word, hw, hi⟩)
  refine ⟨hiff, ?_⟩
  intro word hw hi
  cases hv : (validateMessage s).valid with
  | false => rfl
  | true => exact absurd hi ((hiff.1 hv).2.2 word hw)

/-- Witness for C10: a greeting is accepted, a message containing a blocked
term is rejected. -/
theorem validateMessage_accepts_iff_witness :
    (validateMessage "你好，开始吧").valid = true ∧ (validateMessage "这是政治话题").valid = false :=
  ⟨(validateMessage_accepts_iff "你好，开始吧").1.2
      ⟨⟨by decide, by decide⟩, by decide, by
        intro word hword
        rw [← listIncludes_iff_isInfix]
        revert word
        decide⟩,
    (validateMessage_accepts_iff "这是政治话题").2 "政治" (by decide)
      ((listIncludes_iff_isInfix _ _).1 (by decide))⟩

/-! ## Theorems: rejection messages of `validateMessage` -/

theorem validateMessage_of_blank (s : String)
    (h : s = "" ∨ ∀ c ∈ s.data, isWhitespace c = true) :
    validateMessage s = { valid := false, message := some "消息内容不能为空" } := by
  have hcond : s = "" ∨ jsTrim s = "" := by
    rcases h with h | h
    · exact Or.inl h
    · exact Or.inr ((jsTrim_eq_empty_iff s).2 h)
  unfold validateMessage
  rw [if_pos hcond]

theorem validateMessage_of_long (s : String) (hlen : jsLength s > 100)
    (hws : ¬ ∀ c ∈ s.data, isWhitespace c = true) :
    validateMessage s = { valid := false, message := some "消息长度不能超过100个字符" } := by
  have hne : s ≠ "" := by
    intro h
    rw [h] at hlen
    simp [jsLength] at hlen
  have hcond : ¬ (s = "" ∨ jsTrim s = "") := by
    rintro (h | h)
    · exact hne h
    · exact hws ((jsTrim_eq_empty_iff s).1 h)
  unfold validateMessage
  rw [if_neg hcond, if_pos hlen]

/-- C11 as stated fails: a string of 101 spaces is longer than 100 characters, and
`validateMessage` rejects it with the empty-content message, not with the
length-specific one. -/
theorem validateMessage_long_blank_not_length_message :
    jsLength blankLine > 100 ∧
    validateMessage blankLine = { valid := false, message := some "消息内容不能为空" } ∧
    (validateMessage blankLine).message ≠ some "消息长度不能超过100个字符" := by
  decide

/-- C11 amended: every string longer than 100 characters (JavaScript `length`) is
rejected; it is rejected with the length-specific message when it is not made
of white space only, and with the empty-content message when it is. -/
theorem validateMessage_rejects_long (s : String) (hlen : jsLength s > 100) :
    (validateMessage s).valid = false ∧
    (¬ (∀ c ∈ s.data, isWhitespace c = true) →
      validateMessage s = { valid := false, message := some "消息长度不能超过100个字符" }) ∧
    ((∀ c ∈ s.data, isWhitespace c = true) →
      validateMessage s = { valid := false, message := some "消息内容不能为空" }) := by
  refine ⟨?_, fun hws => validateMessage_of_long s hlen hws,
    fun hws => validateMessage_of_blank s (Or.inr hws)⟩
  by_cases hws : ∀ c ∈ s.data, isWhitespace c = true
  · rw [validateMessage_of_blank s (Or.inr hws)]
  · rw [validateMessage_of_long s hlen hws]

/-- Witness for C11 (amended): 101 letters are rejected with the length-specific
message. -/
theorem validateMessage_rejects_long_witness :
    validateMessage ⟨List.replicate 101 'a'⟩ =
      { valid := false, message := some "消息长度不能超过100个字符" } :=
  (validateMessage_rejects_long ⟨List.replicate 101 'a'⟩ (by decide)).2.1 (by decide)

/-- C12: the empty string and every string made of white space only are rejected
with the empty-content message. -/
theorem validateMessage_rejects_blank (s : String)
    (h : s = "" ∨ ∀ c ∈ s.data, isWhitespace c = true) :
    validateMessage s = { valid := false, message := some "消息内容不能为空" } ∧
    (validateMessage s).valid = false ∧
    (validateMessage s).message = some "消息内容不能为空" := by
  rw [validateMessage_of_blank s h]
  exact ⟨rfl, rfl, rfl⟩

/-- Witness for C12: the empty string, and a string of a space, a tab and an
ideographic space. -/
theorem validateMessage_rejects_blank_witness :
    validateMessage "" = { valid := false, message := some "消息内容不能为空" } ∧
    validateMessage " \t　" = { valid := false, message := some "消息内容不能为空" } :=
  ⟨(validateMessage_rejects_blank "" (Or.inl rfl)).1,
    (validateMessage_rejects_blank " \t　" (Or.inr (by decide))).1⟩

/-! ## Theorems: response interceptor -/

theorem apiCall_of_transport_error {ν ρ δ : Type}
    (transport : ApiRequest ρ → ν → Except (JsError δ) (HttpResponse δ) × ν)
    (method url : String) (body : Option ρ) (w : ApiWorld ν ρ) (e : JsError δ) (net1 : ν)
    (h : transport (requestInterceptor w.token method url body) w.net = (Except.error e, net1)) :
    apiCall transport method url body w =
      (Except.error e,
        { net := net1
          token := if evictsToken e then none else w.token
          notices := w.notices ++ [errorMessage e]
          sent := w.sent ++ [requestInterceptor w.token method url body] }) := by
  simp only [apiCall, h]

/-- C14: when the transport rejects with error `e`, the error handler raises
exactly one notice, `errorMessage e`, and rejects with `e` itself. With a
response: status 400 and 500 give the server message or their default; 401,
403, 404 and 429 give their fixed message whatever the server message; any
other status gives the server message or the text with the status. Without a
response: code `ECONNABORTED` gives the timeout message, otherwise message
`Network Error` gives the connection-failed message, otherwise the general
network message. A server message that is missing or empty counts as absent. -/
theorem errorHandler_selects_one_message {ν ρ δ : Type}
    (transport : ApiRequest ρ → ν → Except (JsError δ) (HttpResponse δ) × ν)
    (method url : String) (body : Option ρ) (w : ApiWorld ν ρ) (e : JsError δ) (net1 : ν)
    (h : transport (requestInterceptor w.token method url body) w.net = (Except.error e, net1)) :
    (apiCall transport method url body w).1 = Except.error e ∧
    (apiCall transport method url body w).2.notices = w.notices ++ [errorMessage e] ∧
    (∀ r, e.response = some r →
      (r.status = 400 →
        errorMessage e = orDefault (r.data.bind (fun d => d.message)) "请求参数错误") ∧
      (r.status = 500 →
        errorMessage e = orDefault (r.data.bind (fun d => d.message)) "服务器内部错误") ∧
      (r.status = 401 → errorMessage e = "未授权，请重新登录") ∧
      (r.status = 403 → errorMessage e = "无权限访问") ∧
      (r.status = 404 → errorMessage e = "请求的资源不存在") ∧
      (r.status = 429 → errorMessage e = "请求过于频繁，请稍后重试") ∧
      (r.status ≠ 400 → r.status ≠ 401 → r.status ≠ 403 → r.status ≠ 404 →
        r.status ≠ 429 → r.status ≠ 500 →
        errorMessage e = orDefault (r.data.bind (fun d => d.message))
          ("请求失败 (" ++ toString r.status ++ ")"))) ∧
    (e.response = none →
      (e.code = some "ECONNABORTED" → errorMessage e = "请求超时，请检查网络连接") ∧
      (e.code ≠ some "ECONNABORTED" → e.message = "Network Error" →
        errorMessage e = "网络连接失败，请检查网络设置") ∧
      (e.code ≠ some "ECONNABORTED" → e.message ≠ "Network Error" →
        errorMessage e = "网络错误，请稍后重试")) ∧
    (∀ (m fallback : String), m ≠ "" → orDefault (some m) fallback = m) ∧
    (∀ (fallback : String), orDefault none fallback = fallback ∧
      orDefault (some "") fallback = fallback) := by
  rw [apiCall_of_transport_error transport method url body w e net1 h]
  refine ⟨rfl, rfl, ?_, ?_, ?_, ?_⟩
  · intro r hr
    refine ⟨?_, ?_, ?_, ?_, ?_, ?_, ?_⟩
    · intro hs; simp [errorMessage, hr, hs]
    · intro hs; simp [errorMessage, hr, hs]
    · intro hs; simp [errorMessage, hr, hs]
    · intro hs; simp [errorMessage, hr, hs]
    · intro hs; simp [errorMessage, hr, hs]
    · intro hs; simp [errorMessage, hr, hs]
    · intro h1 h2 h3 h4 h5 h6
      simp [errorMessage, hr, h1, h2, h3, h4, h5, h6]
  · intro hr
    refine ⟨?_, ?_, ?_⟩
    · intro hc; simp [errorMessage, hr, hc]
    · intro hc hm; simp [errorMessage, hr, hc, hm]
    · intro hc hm; simp [errorMessage, hr, hc, hm]
  · intro m fallback hm
    simp [orDefault, hm]
  · intro fallback
    exact ⟨rfl, rfl⟩

/-- Witness for C14: the HTTP 400 error `badRequest` is answered with the server
message and rejected unchanged. -/
theorem errorHandler_selects_one_message_witness :
    (apiCall (failingTransport badRequest) "post" "/rooms" (some "room") freshApiWorld).1 =
      Except.error badRequest ∧
    (apiCall (failingTransport badRequest) "post" "/rooms" (some "room") freshApiWorld).2.notices =
      ["房间已满"] := by
  have h := errorHandler_selects_one_message (failingTransport badRequest) "post" "/rooms"
    (some "room") freshApiWorld badRequest 1 rfl
  exact ⟨h.1, by rw [h.2.1]; decide⟩

/-- C15 as stated fails: the HTTP 204 response without a body is returned
unchanged although it carries no envelope with code 200. -/
theorem responseFulfilled_passes_bodyless :
    ¬ ((responseFulfilled noContent).1 = Except.ok noContent ↔
      ∃ envelope, noContent.data = some envelope ∧ envelope.code = some 200) := by
  intro h
  obtain ⟨envelope, hdata, _⟩ := h.1 rfl
  cases hdata

/-- C15 amended: the success handler returns the response unchanged exactly when
the response has no body or its envelope's code is 200; a response with a body
whose code is not 200 (or is missing) is rejected with `new Error(message)`,
after a notice with the same text, where the message is the envelope's message,
or the default when that is missing or empty. -/
theorem responseFulfilled_unchanged_iff {δ : Type} (response : HttpResponse δ) :
    ((responseFulfilled response).1 = Except.ok response ↔
      (response.data = none ∨
        ∃ envelope, response.data = some envelope ∧ envelope.code = some 200)) ∧
    (∀ envelope, response.data = some envelope → envelope.code ≠ some 200 →
      responseFulfilled response =
        (Except.error (newError (orDefault envelope.message "请求失败")),
          some (orDefault envelope.message "请求失败"))) ∧
    (∀ envelope, response.data = some envelope → envelope.code = some 200 →
      responseFulfilled response = (Except.ok response, none)) ∧
    (response.data = none → responseFulfilled response = (Except.ok response, none)) := by
  cases hdata : response.data with
  | none =>
    refine ⟨?_, ?_, ?_, ?_⟩
    · simp [responseFulfilled, hdata]
    · intro envelope h; cases h
    · intro envelope h; cases h
    · intro _; simp [responseFulfilled, hdata]
  | some envelope =>
    by_cases hcode : envelope.code = some 200
    · refine ⟨?_, ?_, ?_, ?_⟩
      · simp [responseFulfilled, hdata, hcode]
      · intro env h hne
        cases h
        exact absurd hcode hne
      · intro env h _
        cases h
        simp [responseFulfilled, hdata, hcode]
      · intro h; cases h
    · refine ⟨?_, ?_, ?_, ?_⟩
      · simp [responseFulfilled, hdata, hcode]
      · intro env h _
        cases h
        simp [responseFulfilled, hdata, hcode]
      · intro env h hc
        cases h
        exact absurd hc hcode
      · intro h; cases h

/-- Witness for C15 (amended): the "room is full" answer is rejected with its
message, an answer with code 200 is returned unchanged. -/
theorem responseFulfilled_unchanged_iff_witness :
    responseFulfilled { status := 200, data := some roomFull } =
      (Except.error (newError "房间已满"), some "房间已满") ∧
    responseFulfilled
        ({ status := 200, data := some { code := some 200, message := some "ok", data := none } } :
          HttpResponse Unit) =
      (Except.ok { status := 200, data := some { code := some 200, message := some "ok", data := none } },
        none) :=
  ⟨(responseFulfilled_unchanged_iff { status := 200, data := some roomFull }).2.1 roomFull rfl
      (by decide),
    (responseFulfilled_unchanged_iff
      { status := 200, data := some { code := some 200, message := some "ok", data := none } }).2.2.1
      _ rfl rfl⟩

/-! ## Theorems: `filterSensitiveWords` -/

theorem toUpper_eq_iff_of_not_ascii (c d : Char) (hd : 128 ≤ d.toNat) :
    Char.toUpper c = d ↔ c = d := by
  by_cases hlow : c.toNat ≥ 97 ∧ c.toNat ≤ 122
  · have hc : c = Char.ofNat c.toNat := (Char.ofNat_toNat c).symm
    obtain ⟨h1, h2⟩ := hlow
    have hup : (Char.toUpper c).toNat < 128 := by
      generalize c.toNat = n at hc h1 h2
      subst hc
      interval_cases n <;> decide
    constructor
    · intro h
      rw [h] at hup
      omega
    · intro h
      rw [h] at h2
      omega
  · simp [Char.toUpper, hlow]

theorem canonicalize_beq (p c : Char) (hp : 128 ≤ p.toNat) :
    (canonicalize p == canonicalize c) = (p == c) := by
  have hpp : Char.toUpper p = p := (toUpper_eq_iff_of_not_ascii p p hp).2 rfl
  have h := toUpper_eq_iff_of_not_ascii c p hp
  unfold canonicalize
  rw [hpp]
  by_cases hcp : c = p
  · subst hcp
    simp [hpp]
  · have h2 : ¬ Char.toUpper c = p := fun hx => hcp (h.1 hx)
    have h3 : ¬ p = Char.toUpper c := fun hx => h2 hx.symm
    have h4 : ¬ p = c := fun hx => hcp hx.symm
    simp [h3, h4]

theorem matchesAt_eq_isPrefixOf (p : List Char) (hp : ∀ d ∈ p, 128 ≤ d.toNat) :
    ∀ t : List Char, matchesAt p t = p.isPrefixOf t := by
  induction p with
  | nil => intro t; simp [matchesAt]
  | cons d ds ih =>
    intro t
    cases t with
    | nil => simp [matchesAt]
    | cons c cs =>
      have hd : 128 ≤ d.toNat := hp d (List.mem_cons_self _ _)
      have hds := ih (fun x hx => hp x (List.mem_cons_of_mem _ hx)) cs
      simp only [matchesAt, List.isPrefixOf_cons₂, hds, canonicalize_beq d c hd]

theorem replaceFrom_pair_single (a b : Char) (ha : 128 ≤ a.toNat) (hb : 128 ≤ b.toNat)
    (m : List Char) (c : Char) : replaceFrom [a, b] m 0 [c] = [c] := by
  have hp : ∀ d ∈ [a, b], 128 ≤ d.toNat := by
    intro d hd
    rcases List.mem_cons.1 hd with h | h
    · rw [h]; exact ha
    · rw [List.mem_singleton.1 h]; exact hb
  simp [replaceFrom, matchesAt_eq_isPrefixOf [a, b] hp, List.isPrefixOf]

theorem replaceFrom_pair_cons_cons (a b : Char) (ha : 128 ≤ a.toNat) (hb : 128 ≤ b.toNat)
    (m : List Char) (c d : Char) (rest : List Char) :
    replaceFrom [a, b] m 0 (c :: d :: rest) =
      if c = a ∧ d = b then m ++ replaceFrom [a, b] m 0 rest
      else c :: replaceFrom [a, b] m 0 (d :: rest) := by
  have hp : ∀ x ∈ [a, b], 128 ≤ x.toNat := by
    intro x hx
    rcases List.mem_cons.1 hx with h | h
    · rw [h]; exact ha
    · rw [List.mem_singleton.1 h]; exact hb
  have hmatch : matchesAt [a, b] (c :: d :: rest) = (decide (c = a ∧ d = b)) := by
    rw [matchesAt_eq_isPrefixOf [a, b] hp]
    by_cases h1 : c = a
    · by_cases h2 : d = b
      · simp [List.isPrefixOf, h1, h2]
      · have h2' : ¬ b = d := fun hx => h2 hx.symm
        simp [List.isPrefixOf, h1, h2, h2']
    · have h1' : ¬ a = c := fun hx => h1 hx.symm
      simp [List.isPrefixOf, h1, h1']
  conv_lhs => rw [replaceFrom]
  rw [hmatch]
  by_cases hcd : c = a ∧ d = b
  · simp only [hcd, decide_True, if_true, and_self]
    rfl
  · simp only [hcd, decide_False, if_false, Bool.false_eq_true]

theorem replaceFrom_pair_cons_of_ne (a b : Char) (ha : 128 ≤ a.toNat) (hb : 128 ≤ b.toNat)
    (m : List Char) (c : Char) (t : List Char) (h : ¬ (c = a ∧ ∃ rest, t = b :: rest)) :
    replaceFrom [a, b] m 0 (c :: t) = c :: replaceFrom [a, b] m 0 t := by
  cases t with
  | nil =>
    rw [replaceFrom_pair_single a b ha hb]
    rfl
  | cons d rest =>
    rw [replaceFrom_pair_cons_cons a b ha hb]
    have hcd : ¬ (c = a ∧ d = b) := by
      rintro ⟨h1, h2⟩
      exact h ⟨h1, rest, by rw [h2]⟩
    rw [if_neg hcd]

theorem maskOccurrences_single (terms : List (List Char)) (hterms : ∀ v ∈ terms, v.length = 2)
    (m : List Char) (c : Char) : maskOccurrences terms m 0 [c] = [c] := by
  have hnone : terms.find? (fun term => term.isPrefixOf [c]) = none := by
    rw [List.find?_eq_none]
    intro v hv hpre
    have hlen := hterms v hv
    have hle := (List.isPrefixOf_iff_prefix.1 hpre).length_le
    simp at hle
    omega
  simp [maskOccurrences, hnone]

theorem maskOccurrences_cons_cons (terms : List (List Char))
    (hterms : ∀ v ∈ terms, v.length = 2) (m : List Char) (c d : Char) (rest : List Char) :
    maskOccurrences terms m 0 (c :: d :: rest) =
      if [c, d] ∈ terms then m ++ maskOccurrences terms m 0 rest
      else c :: maskOccurrences terms m 0 (d :: rest) := by
  have hpair : ∀ v ∈ terms, v.isPrefixOf (c :: d :: rest) = true → v = [c, d] := by
    intro v hv hpre
    have hlen := hterms v hv
    obtain ⟨u, hu⟩ := List.isPrefixOf_iff_prefix.1 hpre
    match v, hlen with
    | [x, y], _ =>
      simp only [List.cons_append, List.nil_append, List.cons.injEq] at hu
      rw [hu.1, hu.2.1]
  cases hfind : terms.find? (fun term => term.isPrefixOf (c :: d :: rest)) with
  | none =>
    have hnot : [c, d] ∉ terms := by
      intro hmem
      have := List.find?_eq_none.1 hfind [c, d] hmem
      simp [List.isPrefixOf] at this
    rw [if_neg hnot]
    conv_lhs => rw [maskOccurrences]
    simp only [hfind]
  | some term =>
    have hmem : term ∈ terms := List.mem_of_find?_eq_some hfind
    have hpre : term.isPrefixOf (c :: d :: rest) = true := by
      simpa using List.find?_some hfind
    have hterm : term = [c, d] := hpair term hmem hpre
    have hin : [c, d] ∈ terms := hterm ▸ hmem
    rw [if_pos hin]
    conv_lhs => rw [maskOccurrences]
    simp only [hfind, hterm]
    rfl
theorem replaceFrom_pair_append_of_ne (a b : Char) (ha : 128 ≤ a.toNat) (hb : 128 ≤ b.toNat)
    (m pre : List Char) (hpre : ∀ x ∈ pre, x ≠ a) (t : List Char) :
    replaceFrom [a, b] m 0 (pre ++ t) = pre ++ replaceFrom [a, b] m 0 t := by
  induction pre with
  | nil => rfl
  | cons x xs ih =>
    have hx : x ≠ a := hpre x (List.mem_cons_self _ _)
    rw [List.cons_append, replaceFrom_pair_cons_of_ne a b ha hb m x (xs ++ t)
      (fun h => hx h.1), ih (fun y hy => hpre y (List.mem_cons_of_mem _ hy))]
    rfl

theorem head_maskOccurrences (terms : List (List Char)) (hterms : ∀ v ∈ terms, v.length = 2)
    (m : List Char) (hmne : m ≠ []) (b : Char) (hmb : ∀ x ∈ m, x ≠ b)
    (d : Char) (rest rest1 : List Char)
    (h : maskOccurrences terms m 0 (d :: rest) = b :: rest1) : d = b := by
  cases rest with
  | nil =>
    rw [maskOccurrences_single terms hterms] at h
    exact (List.cons.inj h).1
  | cons e rest2 =>
    rw [maskOccurrences_cons_cons terms hterms] at h
    by_cases hin : [d, e] ∈ terms
    · rw [if_pos hin] at h
      cases m with
      | nil => exact absurd rfl hmne
      | cons x xs =>
        have hx : x = b := (List.cons.inj h).1
        exact absurd hx (hmb x (List.mem_cons_self _ _))
    · rw [if_neg hin] at h
      exact (List.cons.inj h).1

theorem maskOccurrences_cons_of_not_head (terms : List (List Char))
    (hterms : ∀ v ∈ terms, v.length = 2) (m : List Char) (b : Char)
    (hhead : ∀ v ∈ terms, v.head? ≠ some b) (rest : List Char) :
    maskOccurrences terms m 0 (b :: rest) = b :: maskOccurrences terms m 0 rest := by
  cases rest with
  | nil =>
    rw [maskOccurrences_single terms hterms]
    rfl
  | cons e rest2 =>
    rw [maskOccurrences_cons_cons terms hterms]
    have hnot : [b, e] ∉ terms := fun hin => hhead [b, e] hin rfl
    rw [if_neg hnot]

theorem replaceFrom_maskOccurrences (terms : List (List Char))
    (hterms : ∀ v ∈ terms, v.length = 2) (a b : Char) (ha : 128 ≤ a.toNat)
    (hb : 128 ≤ b.toNat) (m : List Char) (hmne : m ≠ []) (hma : ∀ x ∈ m, x ≠ a)
    (hmb : ∀ x ∈ m, x ≠ b) (hhead : ∀ v ∈ terms, v.head? ≠ some b) :
    ∀ t : List Char,
      replaceFrom [a, b] m 0 (maskOccurrences terms m 0 t) =
        maskOccurrences (terms ++ [[a, b]]) m 0 t := by
  have hterms2 : ∀ v ∈ terms ++ [[a, b]], v.length = 2 := by
    intro v hv
    rcases List.mem_append.1 hv with h | h
    · exact hterms v h
    · rw [List.mem_singleton.1 h]; rfl
  have hboth : ∀ t : List Char,
      (replaceFrom [a, b] m 0 (maskOccurrences terms m 0 t) =
        maskOccurrences (terms ++ [[a, b]]) m 0 t) ∧
      ∀ c : Char, replaceFrom [a, b] m 0 (maskOccurrences terms m 0 (c :: t)) =
        maskOccurrences (terms ++ [[a, b]]) m 0 (c :: t) := by
    intro t
    induction t with
    | nil =>
      refine ⟨rfl, ?_⟩
      intro c
      rw [maskOccurrences_single terms hterms, maskOccurrences_single _ hterms2,
        replaceFrom_pair_single a b ha hb]
    | cons d rest ih =>
      obtain ⟨ihrest, ihcons⟩ := ih
      refine ⟨ihcons d, ?_⟩
      intro c
      rw [maskOccurrences_cons_cons terms hterms, maskOccurrences_cons_cons _ hterms2]
      by_cases hin : [c, d] ∈ terms
      · have hin2 : [c, d] ∈ terms ++ [[a, b]] := List.mem_append_left _ hin
        rw [if_pos hin, if_pos hin2, replaceFrom_pair_append_of_ne a b ha hb m m hma, ihrest]
      · rw [if_neg hin]
        by_cases hcd : c = a ∧ d = b
        · obtain ⟨hc, hd⟩ := hcd
          subst hc
          subst hd
          have hin2 : [c, d] ∈ terms ++ [[c, d]] :=
            List.mem_append_right _ (List.mem_singleton.2 rfl)
          rw [if_pos hin2, maskOccurrences_cons_of_not_head terms hterms m d hhead,
            replaceFrom_pair_cons_cons c d ha hb, if_pos ⟨rfl, rfl⟩, ihrest]
        · have hin2 : [c, d] ∉ terms ++ [[a, b]] := by
            intro hmem
            rcases List.mem_append.1 hmem with h | h
            · exact hin h
            · have := List.mem_singleton.1 h
              simp only [List.cons.injEq, and_true] at this
              exact hcd this
          rw [if_neg hin2, replaceFrom_pair_cons_of_ne a b ha hb m c _ ?_, ihcons d]
          rintro ⟨hc, rest1, hrest1⟩
          have hd := head_maskOccurrences terms hterms m hmne b hmb d rest rest1 hrest1
          exact hcd ⟨hc, hd⟩
  intro t
  exact (hboth t).1

theorem maskOccurrences_nil_terms (m t : List Char) : maskOccurrences [] m 0 t = t := by
  induction t with
  | nil => rfl
  | cons c cs ih => simp [maskOccurrences, ih]
theorem data_replaceAllIgnoreCase_pair (word : String) (a b : Char) (hw : word.data = [a, b])
    (x : String) :
    (replaceAllIgnoreCase word maskText x).data = replaceFrom [a, b] maskText.data 0 x.data := by
  simp [replaceAllIgnoreCase, hw]

theorem filterSensitiveWords_eq_maskBlockedTerms (s : String) :
    filterSensitiveWords s = maskBlockedTerms s := by
  apply String.ext
  have h0 : s.data = maskOccurrences [] maskText.data 0 s.data :=
    (maskOccurrences_nil_terms _ _).symm
  simp only [filterSensitiveWords, sensitiveWords, List.foldl_cons, List.foldl_nil,
    maskBlockedTerms]
  rw [data_replaceAllIgnoreCase_pair "毒品" '毒' '品' rfl,
    data_replaceAllIgnoreCase_pair "赌博" '赌' '博' rfl,
    data_replaceAllIgnoreCase_pair "暴力" '暴' '力' rfl,
    data_replaceAllIgnoreCase_pair "色情" '色' '情' rfl,
    data_replaceAllIgnoreCase_pair "政治" '政' '治' rfl]
  conv_lhs => rw [h0]
  rw [replaceFrom_maskOccurrences [] (by decide) '政' '治' (by decide) (by decide) maskText.data
      (by decide) (by decide) (by decide) (by decide),
    replaceFrom_maskOccurrences _ (by decide) '色' '情' (by decide) (by decide) maskText.data
      (by decide) (by decide) (by decide) (by decide),
    replaceFrom_maskOccurrences _ (by decide) '暴' '力' (by decide) (by decide) maskText.data
      (by decide) (by decide) (by decide) (by decide),
    replaceFrom_maskOccurrences _ (by decide) '赌' '博' (by decide) (by decide) maskText.data
      (by decide) (by decide) (by decide) (by decide),
    replaceFrom_maskOccurrences _ (by decide) '毒' '品' (by decide) (by decide) maskText.data
      (by decide) (by decide) (by decide) (by decide)]
  rfl

theorem not_infix_append_of_disjoint (v pre t : List Char) (hv : v ≠ [])
    (hpre : ∀ x ∈ pre, x ∉ v) (h : v <:+: pre ++ t) : v <:+: t := by
  induction pre with
  | nil => exact h
  | cons p ps ih =>
    rw [List.cons_append, List.infix_cons_iff] at h
    rcases h with h | h
    · cases v with
      | nil => exact absurd rfl hv
      | cons x xs =>
        obtain ⟨u, hu⟩ := h
        have hx : x = p := (List.cons.inj hu).1
        exact absurd (hx ▸ List.mem_cons_self x xs) (hpre p (List.mem_cons_self _ _))
    · exact ih (fun y hy => hpre y (List.mem_cons_of_mem _ hy)) h

theorem not_infix_maskOccurrences (terms : List (List Char))
    (hterms : ∀ v ∈ terms, v.length = 2) (m : List Char) (hmne : m ≠ [])
    (hm : ∀ v ∈ terms, ∀ x ∈ m, x ∉ v) (v : List Char) (hv : v ∈ terms) :
    ∀ t : List Char, ¬ v <:+: maskOccurrences terms m 0 t := by
  have hlen := hterms v hv
  have hvne : v ≠ [] := by
    intro h
    rw [h] at hlen
    cases hlen
  have hboth : ∀ t : List Char,
      (¬ v <:+: maskOccurrences terms m 0 t) ∧
      ∀ c : Char, ¬ v <:+: maskOccurrences terms m 0 (c :: t) := by
    intro t
    induction t with
    | nil =>
      refine ⟨?_, ?_⟩
      · intro h
        have := h.length_le
        rw [hlen] at this
        simp [maskOccurrences] at this
      · intro c h
        rw [maskOccurrences_single terms hterms] at h
        have := h.length_le
        rw [hlen] at this
        simp at this
    | cons d rest ih =>
      obtain ⟨ihrest, ihcons⟩ := ih
      refine ⟨ihcons d, ?_⟩
      intro c h
      rw [maskOccurrences_cons_cons terms hterms] at h
      by_cases hin : [c, d] ∈ terms
      · rw [if_pos hin] at h
        exact ihrest (not_infix_append_of_disjoint v m _ hvne (hm v hv) h)
      · rw [if_neg hin, List.infix_cons_iff] at h
        rcases h with h | h
        · match v, hlen, hv, h with
          | [x, y], _, hv, h =>
            obtain ⟨u, hu⟩ := h
            simp only [List.cons_append, List.nil_append, List.cons.injEq] at hu
            obtain ⟨hx, hrest⟩ := hu
            have hy : ∀ z ∈ m, z ≠ y := by
              intro z hz hzy
              exact hm [x, y] hv z hz (by simp [hzy])
            have hd := head_maskOccurrences terms hterms m hmne y hy d rest u hrest.symm
            rw [hx, ← hd] at hv
            exact hin hv
        · exact ihcons d h
  intro t
  exact (hboth t).1

theorem maskOccurrences_of_no_occurrence (terms : List (List Char)) (m : List Char) :
    ∀ t : List Char, (∀ v ∈ terms, ¬ v <:+: t) → maskOccurrences terms m 0 t = t := by
  intro t
  induction t with
  | nil => intro _; rfl
  | cons c cs ih =>
    intro h
    have hnone : terms.find? (fun term => term.isPrefixOf (c :: cs)) = none := by
      rw [List.find?_eq_none]
      intro v hv hpre
      exact h v hv (List.isPrefixOf_iff_prefix.1 hpre).isInfix
    have htail : ∀ v ∈ terms, ¬ v <:+: cs := by
      intro v hv hin
      exact h v hv (List.infix_cons hin)
    conv_lhs => rw [maskOccurrences]
    simp only [hnone, ih htail]

theorem maskOccurrences_append_term (terms : List (List Char))
    (hterms : ∀ v ∈ terms, v.length = 2) (m : List Char) (a b : Char) (hab : [a, b] ∈ terms)
    (hlast : ∀ v ∈ terms, v.getLast? ≠ some a) :
    ∀ u v : List Char,
      maskOccurrences terms m 0 (u ++ a :: b :: v) =
        maskOccurrences terms m 0 u ++ (m ++ maskOccurrences terms m 0 v) := by
  intro u v
  have hboth : ∀ u : List Char,
      (maskOccurrences terms m 0 (u ++ a :: b :: v) =
        maskOccurrences terms m 0 u ++ (m ++ maskOccurrences terms m 0 v)) ∧
      ∀ c : Char, maskOccurrences terms m 0 ((c :: u) ++ a :: b :: v) =
        maskOccurrences terms m 0 (c :: u) ++ (m ++ maskOccurrences terms m 0 v) := by
    intro u
    induction u with
    | nil =>
      have h0 : maskOccurrences terms m 0 (a :: b :: v) = m ++ maskOccurrences terms m 0 v := by
        rw [maskOccurrences_cons_cons terms hterms, if_pos hab]
      refine ⟨?_, ?_⟩
      · simpa [maskOccurrences] using h0
      · intro c
        have hnot : [c, a] ∉ terms := fun hin => hlast [c, a] hin rfl
        rw [maskOccurrences_single terms hterms]
        simp only [List.cons_append, List.nil_append]
        rw [maskOccurrences_cons_cons terms hterms, if_neg hnot, h0]
    | cons d rest ih =>
      obtain ⟨ihrest, ihcons⟩ := ih
      refine ⟨ihcons d, ?_⟩
      intro c
      simp only [List.cons_append] at ihcons ihrest ⊢
      rw [maskOccurrences_cons_cons terms hterms, maskOccurrences_cons_cons terms hterms]
      by_cases hin : [c, d] ∈ terms
      · rw [if_pos hin, if_pos hin, ihrest, List.append_assoc]
      · rw [if_neg hin, if_neg hin, ihcons d, List.cons_append]
  exact (hboth u).1

theorem filterSensitiveWords_append_term (u v word : String) (hword : word ∈ sensitiveWords) :
    filterSensitiveWords (u ++ word ++ v) =
      filterSensitiveWords u ++ maskText ++ filterSensitiveWords v := by
  simp only [filterSensitiveWords_eq_maskBlockedTerms]
  apply String.ext
  simp only [maskBlockedTerms, String.data_append]
  have hpair : ∃ a b, word.data = [a, b] ∧
      [a, b] ∈ sensitiveWords.map String.data ∧
      ∀ t ∈ sensitiveWords.map String.data, t.getLast? ≠ some a := by
    simp only [sensitiveWords, List.mem_cons, List.mem_singleton, List.not_mem_nil,
      or_false] at hword
    rcases hword with h | h | h | h | h
    · exact ⟨'政', '治', by rw [h], by decide, by decide⟩
    · exact ⟨'色', '情', by rw [h], by decide, by decide⟩
    · exact ⟨'暴', '力', by rw [h], by decide, by decide⟩
    · exact ⟨'赌', '博', by rw [h], by decide, by decide⟩
    · exact ⟨'毒', '品', by rw [h], by decide, by decide⟩
  obtain ⟨a, b, hw, hab, hlast⟩ := hpair
  have h := maskOccurrences_append_term (sensitiveWords.map String.data) (by decide)
    maskText.data a b hab hlast u.data v.data
  rw [hw]
  simpa [List.append_assoc] using h

/-- C13: `filterSensitiveWords s` is `s` with every occurrence of each of the five
blocked terms replaced by the three-character mask `***`: one left-to-right
pass over `s` that masks every term where it starts gives the same string as
the five successive replacements of the code; a string in which no term occurs
is returned as it is, and a term between two parts `u` and `v` becomes the mask
between the filtered `u` and the filtered `v`. No blocked term occurs in the
result. -/
theorem filterSensitiveWords_masks_every_occurrence (s : String) :
    filterSensitiveWords s = maskBlockedTerms s ∧
    maskText = "***" ∧
    (∀ word ∈ sensitiveWords, ¬ word.data <:+: (filterSensitiveWords s).data) ∧
    ((∀ word ∈ sensitiveWords, ¬ word.data <:+: s.data) → filterSensitiveWords s = s) ∧
    (∀ (u v word : String), word ∈ sensitiveWords → s = u ++ word ++ v →
      filterSensitiveWords s = filterSensitiveWords u ++ maskText ++ filterSensitiveWords v) := by
  refine ⟨filterSensitiveWords_eq_maskBlockedTerms s, rfl, ?_, ?_, ?_⟩
  · intro word hword
    rw [filterSensitiveWords_eq_maskBlockedTerms]
    exact not_infix_maskOccurrences (sensitiveWords.map String.data) (by decide)
      maskText.data (by decide) (by decide) word.data (List.mem_map_of_mem _ hword) s.data
  · intro hnone
    rw [filterSensitiveWords_eq_maskBlockedTerms]
    apply String.ext
    apply maskOccurrences_of_no_occurrence
    intro v hv
    obtain ⟨word, hword, rfl⟩ := List.mem_map.1 hv
    exact hnone word hword
  · intro u v word hword hs
    rw [hs]
    exact filterSensitiveWords_append_term u v word hword

/-- Witness for C13: two terms, a repeated term and a term nested between the
characters of another occurrence. -/
theorem filterSensitiveWords_masks_every_occurrence_witness :
    filterSensitiveWords "这是政治和色情，政治政政治治" = "这是***和***，***政***治" ∧
    filterSensitiveWords "你好" = "你好" := by
  have h := filterSensitiveWords_masks_every_occurrence "这是政治和色情，政治政政治治"
  refine ⟨?_, ?_⟩
  · rw [h.1]
    decide
  · decide

/-! ## Theorems: chat store -/

theorem validateMessage_message_of_invalid (content : String)
    (h : (validateMessage content).valid = false) :
    ∃ m, (validateMessage content).message = some m ∧
      (m = "消息内容不能为空" ∨ m = "消息长度不能超过100个字符" ∨ m = "消息包含敏感词汇") := by
  unfold validateMessage at h ⊢
  split
  · exact ⟨_, rfl, Or.inl rfl⟩
  · split
    · exact ⟨_, rfl, Or.inr (Or.inl rfl)⟩
    · split
      · exact ⟨_, rfl, Or.inr (Or.inr rfl)⟩
      · rename_i h1 h2 h3
        rw [if_neg h1, if_neg h2, if_neg h3] at h
        cases h

/-- C17: when `validateMessage` rejects the content, the chat store's
`sendMessage` rejects with an `Error` whose message is the validation message,
records that message in `error`, leaves `isLoading` false and the histories,
the message list and the current room as they were, and dispatches nothing on
either channel. -/
theorem sendMessage_rejects_invalid_content {σ δ : Type} (client : ApiClient σ δ)
    (storedUserId : Option String) (content : String) (s : ChatStore) (w : σ)
    (h : (validateMessage content).valid = false) :
    ∃ m, (validateMessage content).message = some m ∧
      (m = "消息内容不能为空" ∨ m = "消息长度不能超过100个字符" ∨ m = "消息包含敏感词汇") ∧
      (ChatStore.sendMessage client storedUserId content s w).outcome =
        Except.error (newError m) ∧
      (ChatStore.sendMessage client storedUserId content s w).store.error = some m ∧
      (ChatStore.sendMessage client storedUserId content s w).store.isLoading = false ∧
      (ChatStore.sendMessage client storedUserId content s w).store.messageHistory =
        s.messageHistory ∧
      (ChatStore.sendMessage client storedUserId content s w).store.messages = s.messages ∧
      (ChatStore.sendMessage client storedUserId content s w).store.currentRoomId =
        s.currentRoomId ∧
      (ChatStore.sendMessage client storedUserId content s w).dispatched = [] ∧
      (ChatStore.sendMessage client storedUserId content s w).world = w := by
  obtain ⟨m, hm, hcases⟩ := validateMessage_message_of_invalid content h
  refine ⟨m, hm, hcases, ?_⟩
  simp [ChatStore.sendMessage, h, hm, ChatStore.failed, newError]

/-- Witness for C17: a message containing a blocked term, sent from a store that
was loading. -/
theorem sendMessage_rejects_invalid_content_witness :
    (ChatStore.sendMessage quietClient none "聊聊政治"
        { sampleStore [sampleMessage "m1"] with isLoading := true } 0).outcome =
      Except.error (newError "消息包含敏感词汇") ∧
    (ChatStore.sendMessage quietClient none "聊聊政治"
        { sampleStore [sampleMessage "m1"] with isLoading := true } 0).dispatched = [] ∧
    (ChatStore.sendMessage quietClient none "聊聊政治"
        { sampleStore [sampleMessage "m1"] with isLoading := true } 0).store.isLoading = false := by
  obtain ⟨m, hm, _, h1, _, h3, _, _, _, h7, _⟩ :=
    sendMessage_rejects_invalid_content quietClient none "聊聊政治"
      { sampleStore [sampleMessage "m1"] with isLoading := true } 0 (by decide)
  have hm2 : m = "消息包含敏感词汇" := by
    have : (validateMessage "聊聊政治").message = some "消息包含敏感词汇" := by decide
    rw [this] at hm
    exact (Option.some.inj hm).symm
  rw [hm2] at h1
  exact ⟨h1, h7, h3⟩

theorem filterSensitiveWords_of_valid (content : String)
    (h : (validateMessage content).valid = true) : filterSensitiveWords content = content := by
  have hnone : ∀ word ∈ sensitiveWords, ¬ word.data <:+: content.data := by
    intro word hword hin
    have hfalse : (validateMessage content).valid = false := by
      have hinc : includes content word = true := (listIncludes_iff_isInfix _ _).2 hin
      have hany : sensitiveWords.any (fun word => includes content word) = true :=
        List.any_eq_true.2 ⟨word, hword, hinc⟩
      unfold validateMessage
      rw [any_sensitive_eq, hany]
      split
      · rfl
      · split
        · rfl
        · rfl
    rw [h] at hfalse
    cases hfalse
  rw [filterSensitiveWords_eq_maskBlockedTerms]
  apply String.ext
  apply maskOccurrences_of_no_occurrence
  intro v hv
  obtain ⟨word, hword, rfl⟩ := List.mem_map.1 hv
  exact hnone word hword

/-- C20: `filterSensitiveWords` leaves every string that `validateMessage` accepts
as it is; so whatever the chat store's `sendMessage` dispatches, on the push
channel or the request channel, carries exactly the content the caller passed
(and for accepted content the push channel is always tried, with that content). -/
theorem sendMessage_dispatches_content_unchanged (content : String) :
    ((validateMessage content).valid = true → filterSensitiveWords content = content) ∧
    (∀ (σ δ : Type) (client : ApiClient σ δ) (storedUserId : Option String) (s : ChatStore)
        (w : σ),
      (∀ d ∈ (ChatStore.sendMessage client storedUserId content s w).dispatched,
        d.content = content) ∧
      ((validateMessage content).valid = true →
        (ChatStore.sendMessage client storedUserId content s w).dispatched.head? =
          some (ChatDispatch.event { roomId := s.currentRoomId, content := content }))) := by
  refine ⟨filterSensitiveWords_of_valid content, ?_⟩
  intro σ δ client storedUserId s w
  cases hv : (validateMessage content).valid with
  | false =>
    refine ⟨?_, fun h => by cases h⟩
    intro d hd
    simp [ChatStore.sendMessage, hv] at hd
  | true =>
    have hf := filterSensitiveWords_of_valid content hv
    simp only [ChatStore.sendMessage, hv, hf, Bool.true_eq_false, if_false]
    rcases hemit : chatEvents.sendChatMessage client
        { roomId := s.currentRoomId, content := content } w with ⟨res, w1⟩
    cases res with
    | error err =>
      dsimp only
      refine ⟨?_, fun _ => rfl⟩
      intro d hd
      simp only [List.mem_singleton] at hd
      rw [hd]
      rfl
    | ok u =>
      dsimp only
      rcases hpost : chatApi.sendMessage client
          { userId := getCurrentUserId storedUserId, roomId := s.currentRoomId,
            content := content } w1 with ⟨res2, w2⟩
      cases res2 with
      | error err =>
        dsimp only
        refine ⟨?_, fun _ => rfl⟩
        intro d hd
        simp only [List.mem_cons, List.mem_singleton, List.not_mem_nil, or_false] at hd
        rcases hd with hd | hd <;> rw [hd] <;> rfl
      | ok r =>
        dsimp only
        refine ⟨?_, fun _ => rfl⟩
        intro d hd
        simp only [List.mem_cons, List.mem_singleton, List.not_mem_nil, or_false] at hd
        rcases hd with hd | hd <;> rw [hd] <;> rfl

/-- Witness for C20: an accepted greeting is dispatched unchanged on both
channels. -/
theorem sendMessage_dispatches_content_unchanged_witness :
    filterSensitiveWords "你好，开始吧" = "你好，开始吧" ∧
    (ChatStore.sendMessage quietClient none "你好，开始吧" (sampleStore []) 0).dispatched =
      [ChatDispatch.event { roomId := "1001", content := "你好，开始吧" },
       ChatDispatch.request { userId := "guest", roomId := "1001", content := "你好，开始吧" }] :=
  ⟨(sendMessage_dispatches_content_unchanged "你好，开始吧").1 (by decide), by decide⟩

/-- C18 fails on the code: `handleMessage` rebuilds the object that
`addSystemMessage` hands over with `isRead := false` and with the message type
detected from the content, so the stored system message is unread and, for a
plain text, of type `text`; the unread count of a guest goes from 0 to 1. -/
theorem addSystemMessage_stored_unread :
    (∀ (freshId : String) (now : Nat) (nextId : String) (nextNow : Nat) (content : String)
        (s : ChatStore), s.currentRoomId ≠ "" →
      ∃ stored, (currentMessages (addSystemMessage freshId now nextId nextNow content s)).getLast?
          = some stored ∧
        stored.senderId = some "system" ∧ stored.type = "system" ∧
        stored.isRead = false ∧ stored.messageType = detectMessageType content) ∧
    currentMessages (addSystemMessage "m1" 5 "m2" 6 "已加入房间 1001" (sampleStore [])) =
      [{ id := "m1", senderId := some "system", sender := "系统", avatarUrl := ""
         content := "已加入房间 1001", timestamp := 5, type := "system", isRead := false
         messageType := "text" }] ∧
    unreadCount none (sampleStore []) = 0 ∧
    unreadCount none (addSystemMessage "m1" 5 "m2" 6 "已加入房间 1001" (sampleStore [])) = 1 := by
  refine ⟨?_, by decide, by decide, by decide⟩
  intro freshId now nextId nextNow content s hroom
  have hcur := mapGet_handleMessage_current nextId nextNow
    (systemMessageData freshId now content) s hroom
  refine ⟨buildMessage nextId nextNow (systemMessageData freshId now content), ?_, rfl, ?_, rfl,
    rfl⟩
  · simp only [addSystemMessage, currentMessages, currentRoomId_handleMessage, hroom, if_false,
      hcur, Option.getD_some]
    unfold truncateHistory
    split
    · rw [List.getLast?_drop]
      simp [historyCap]
      omega
    · simp
  · simp [buildMessage, systemMessageData, orDefault]

/-! ## Theorems: room store -/

theorem ensurePlayerId_of_missing (now : Nat) (random : String) (playerInfo : PlayerInfo)
    (h : playerInfo.playerId = none ∨ playerInfo.playerId = some "") :
    ensurePlayerId now random playerInfo =
      { playerInfo with playerId := some (generateUserId now random) } := by
  rcases h with h | h <;> simp [ensurePlayerId, h]

theorem ensurePlayerId_of_supplied (now : Nat) (random : String) (playerInfo : PlayerInfo)
    (id : String) (h : playerInfo.playerId = some id) (hid : id ≠ "") :
    ensurePlayerId now random playerInfo = playerInfo := by
  simp [ensurePlayerId, h, hid]

theorem joinRoom_of_success {σ δ : Type}
    (joinRoomApi : String → PlayerInfo → σ → Except (JsError δ) (HttpResponse δ) × σ)
    (now : Nat) (random : String) (roomNumber : String) (playerInfo : PlayerInfo)
    (s : RoomStore δ) (localStorage : List (String × String)) (w w1 : σ)
    (r : HttpResponse δ)
    (hapi : joinRoomApi roomNumber (ensurePlayerId now random playerInfo) w = (Except.ok r, w1)) :
    RoomStore.joinRoom joinRoomApi now random roomNumber playerInfo s localStorage w =
      { outcome := Except.ok r.data
        store :=
          { currentRoom := r.data.bind (fun envelope => envelope.data), roomList := s.roomList
            isLoading := false, error := none, wsConnection := s.wsConnection
            currentPlayerId := (ensurePlayerId now random playerInfo).playerId.getD "" }
        localStorage :=
          persistCurrentPlayer ((ensurePlayerId now random playerInfo).playerId.getD "")
            (ensurePlayerId now random playerInfo).playerName localStorage
        playerInfo := ensurePlayerId now random playerInfo
        requested := [(roomNumber, ensurePlayerId now random playerInfo)]
        world := w1 } := by
  simp only [RoomStore.joinRoom, hapi, setCurrentPlayerId]

theorem mapGet_persistCurrentPlayer (id nickname : String)
    (localStorage : List (String × String)) :
    mapGet "currentPlayerId" (persistCurrentPlayer id nickname localStorage) = some id ∧
    mapGet "currentPlayerNickname" (persistCurrentPlayer id nickname localStorage) =
      some nickname := by
  constructor
  · unfold persistCurrentPlayer
    rw [mapGet_mapSet_other _ _ _ _ (by decide), mapGet_mapSet_self]
  · exact mapGet_mapSet_self _ _ _

theorem digitChar_value (d : Nat) (h : d < 10) : (Nat.digitChar d).toNat - 48 = d := by
  interval_cases d <;> rfl

theorem digitChar_ne_underscore (d : Nat) (h : d < 10) : Nat.digitChar d ≠ '_' := by
  interval_cases d <;> decide

theorem toDigitsCore_foldl (fuel : Nat) : ∀ (n : Nat) (ds : List Char), n < fuel →
    List.foldl (fun acc c => 10 * acc + (c.toNat - 48)) 0 (Nat.toDigitsCore 10 fuel n ds) =
      List.foldl (fun acc c => 10 * acc + (c.toNat - 48)) n ds := by
  induction fuel with
  | zero => intro n ds h; omega
  | succ fuel ih =>
    intro n ds h
    simp only [Nat.toDigitsCore]
    split
    · rename_i h0
      have hn : n < 10 := by omega
      simp only [List.foldl_cons, Nat.mul_zero, Nat.zero_add]
      rw [digitChar_value _ (Nat.mod_lt _ (by decide)), Nat.mod_eq_of_lt hn]
    · rename_i h0
      have hlt : n / 10 < fuel := by omega
      rw [ih (n / 10) _ hlt]
      simp only [List.foldl_cons]
      rw [digitChar_value _ (Nat.mod_lt _ (by decide)), Nat.div_add_mod]

theorem toDigitsCore_underscore (fuel : Nat) : ∀ (n : Nat) (ds : List Char),
    '_' ∈ Nat.toDigitsCore 10 fuel n ds → '_' ∈ ds := by
  induction fuel with
  | zero => intro n ds h; simpa [Nat.toDigitsCore] using h
  | succ fuel ih =>
    intro n ds h
    simp only [Nat.toDigitsCore] at h
    split at h
    · rcases List.mem_cons.1 h with h1 | h1
      · exact absurd h1.symm (digitChar_ne_underscore _ (Nat.mod_lt _ (by decide)))
      · exact h1
    · rcases List.mem_cons.1 (ih _ _ h) with h1 | h1
      · exact absurd h1.symm (digitChar_ne_underscore _ (Nat.mod_lt _ (by decide)))
      · exact h1

theorem toString_nat_data (n : Nat) : (toString n).data = Nat.toDigits 10 n := rfl

theorem toString_nat_injective (n m : Nat) (h : toString n = toString m) : n = m := by
  have hd : Nat.toDigits 10 n = Nat.toDigits 10 m := by
    rw [← toString_nat_data, ← toString_nat_data, h]
  have hf := congrArg (List.foldl (fun acc c => 10 * acc + (c.toNat - 48)) 0) hd
  unfold Nat.toDigits at hf
  rw [toDigitsCore_foldl _ _ _ (Nat.lt_succ_self n),
    toDigitsCore_foldl _ _ _ (Nat.lt_succ_self m)] at hf
  simpa using hf

theorem toString_nat_no_underscore (n : Nat) : '_' ∉ (toString n).data := by
  rw [toString_nat_data]
  intro h
  have := toDigitsCore_underscore _ _ _ h
  simp at this

theorem append_separator_cancel (a : Char) : ∀ (l1 l2 r1 r2 : List Char),
    a ∉ l1 → a ∉ l2 → l1 ++ a :: r1 = l2 ++ a :: r2 → l1 = l2 ∧ r1 = r2 := by
  intro l1
  induction l1 with
  | nil =>
    intro l2 r1 r2 _ h2 h
    cases l2 with
    | nil => simpa using h
    | cons c t =>
      simp only [List.nil_append, List.cons_append, List.cons.injEq] at h
      exact absurd (h.1 ▸ List.mem_cons_self _ _) h2
  | cons b t ih =>
    intro l2 r1 r2 h1 h2 h
    cases l2 with
    | nil =>
      simp only [List.nil_append, List.cons_append, List.cons.injEq] at h
      exact absurd (h.1 ▸ List.mem_cons_self _ _) h1
    | cons c t2 =>
      simp only [List.cons_append, List.cons.injEq] at h
      have := ih t2 r1 r2 (fun hm => h1 (List.mem_cons_of_mem _ hm))
        (fun hm => h2 (List.mem_cons_of_mem _ hm)) h.2
      exact ⟨by rw [h.1, this.1], this.2⟩

theorem generateUserId_injective (now now2 : Nat) (random random2 : String)
    (h : generateUserId now2 random2 = generateUserId now random) :
    now2 = now ∧ random2 = random := by
  have hd := congrArg String.data h
  simp only [generateUserId, String.data_append, List.append_assoc] at hd
  have hd2 := List.append_cancel_left hd
  simp only [List.singleton_append] at hd2
  have := append_separator_cancel '_' _ _ _ _ (toString_nat_no_underscore now2)
    (toString_nat_no_underscore now) hd2
  exact ⟨toString_nat_injective _ _ (String.ext this.1), String.ext this.2⟩

/-- C16: when the backend call of `joinRoom`, made with the completed
`playerInfo`, succeeds with a response `r`, whatever `r` holds, the action
resolves with `r.data` and ends with `currentRoom = r.data.data`,
`isLoading = false`, `error = null` and the persisted
`currentPlayerNickname = playerInfo.playerName`. When `playerInfo` supplies no
`playerId` (missing or empty), the identifier `player_<now>_<random>`, made of
the clock reading and the random part of this very call, is left in
`playerInfo.playerId`, is sent in the request, and is both `currentPlayerId`
and the persisted `currentPlayerId`; it starts with `player_`, and another
clock reading or another random part gives another identifier. A supplied
`playerId` is kept and used in the same places. -/
theorem joinRoom_success_sets_current_player {σ δ : Type}
    (joinRoomApi : String → PlayerInfo → σ → Except (JsError δ) (HttpResponse δ) × σ)
    (now : Nat) (random : String) (roomNumber : String) (playerInfo : PlayerInfo)
    (s : RoomStore δ) (localStorage : List (String × String)) (w w1 : σ)
    (r : HttpResponse δ)
    (hapi : joinRoomApi roomNumber (ensurePlayerId now random playerInfo) w = (Except.ok r, w1)) :
    (RoomStore.joinRoom joinRoomApi now random roomNumber playerInfo s localStorage w).outcome =
      Except.ok r.data ∧
    (RoomStore.joinRoom joinRoomApi now random roomNumber playerInfo s localStorage
      w).store.currentRoom = r.data.bind (fun envelope => envelope.data) ∧
    (RoomStore.joinRoom joinRoomApi now random roomNumber playerInfo s localStorage
      w).store.isLoading = false ∧
    (RoomStore.joinRoom joinRoomApi now random roomNumber playerInfo s localStorage
      w).store.error = none ∧
    mapGet "currentPlayerNickname"
      (RoomStore.joinRoom joinRoomApi now random roomNumber playerInfo s localStorage
        w).localStorage = some playerInfo.playerName ∧
    ((playerInfo.playerId = none ∨ playerInfo.playerId = some "") →
      (RoomStore.joinRoom joinRoomApi now random roomNumber playerInfo s localStorage
        w).playerInfo =
        { playerInfo with playerId := some ("player_" ++ toString now ++ "_" ++ random) } ∧
      (RoomStore.joinRoom joinRoomApi now random roomNumber playerInfo s localStorage
        w).requested =
        [(roomNumber,
          { playerInfo with playerId := some ("player_" ++ toString now ++ "_" ++ random) })] ∧
      (RoomStore.joinRoom joinRoomApi now random roomNumber playerInfo s localStorage
        w).store.currentPlayerId = "player_" ++ toString now ++ "_" ++ random ∧
      mapGet "currentPlayerId"
        (RoomStore.joinRoom joinRoomApi now random roomNumber playerInfo s localStorage
          w).localStorage = some ("player_" ++ toString now ++ "_" ++ random) ∧
      "player_".data <+:
        (RoomStore.joinRoom joinRoomApi now random roomNumber playerInfo s localStorage
          w).store.currentPlayerId.data ∧
      ∀ (now2 : Nat) (random2 : String) (s2 : RoomStore δ)
        (localStorage2 : List (String × String)) (w2 : σ),
        (RoomStore.joinRoom joinRoomApi now2 random2 roomNumber playerInfo s2 localStorage2
          w2).playerInfo.playerId =
          (RoomStore.joinRoom joinRoomApi now random roomNumber playerInfo s localStorage
            w).playerInfo.playerId →
        now2 = now ∧ random2 = random) ∧
    (∀ id, playerInfo.playerId = some id → id ≠ "" →
      (RoomStore.joinRoom joinRoomApi now random roomNumber playerInfo s localStorage
        w).playerInfo = playerInfo ∧
      (RoomStore.joinRoom joinRoomApi now random roomNumber playerInfo s localStorage
        w).requested = [(roomNumber, playerInfo)] ∧
      (RoomStore.joinRoom joinRoomApi now random roomNumber playerInfo s localStorage
        w).store.currentPlayerId = id ∧
      mapGet "currentPlayerId"
        (RoomStore.joinRoom joinRoomApi now random roomNumber playerInfo s localStorage
          w).localStorage = some id) := by
  have hinfo : ∀ (now2 : Nat) (random2 : String) (s2 : RoomStore δ)
      (localStorage2 : List (String × String)) (w2 : σ),
      (RoomStore.joinRoom joinRoomApi now2 random2 roomNumber playerInfo s2 localStorage2
        w2).playerInfo = ensurePlayerId now2 random2 playerInfo := by
    intro now2 random2 s2 localStorage2 w2
    simp only [RoomStore.joinRoom]
    split <;> rfl
  refine ⟨?_, ?_, ?_, ?_, ?_, ?_, ?_⟩
  · rw [joinRoom_of_success joinRoomApi now random roomNumber playerInfo s localStorage w w1 r
      hapi]
  · rw [joinRoom_of_success joinRoomApi now random roomNumber playerInfo s localStorage w w1 r
      hapi]
  · rw [joinRoom_of_success joinRoomApi now random roomNumber playerInfo s localStorage w w1 r
      hapi]
  · rw [joinRoom_of_success joinRoomApi now random roomNumber playerInfo s localStorage w w1 r
      hapi]
  · rw [joinRoom_of_success joinRoomApi now random roomNumber playerInfo s localStorage w w1 r
      hapi]
    have hname : (ensurePlayerId now random playerInfo).playerName = playerInfo.playerName := by
      unfold ensurePlayerId
      split
      · split <;> rfl
      · rfl
    simp only [hname]
    exact (mapGet_persistCurrentPlayer _ _ _).2
  · intro hmissing
    refine ⟨?_, ?_, ?_, ?_, ?_, ?_⟩
    · rw [hinfo, ensurePlayerId_of_missing now random playerInfo hmissing]
      rfl
    · rw [joinRoom_of_success joinRoomApi now random roomNumber playerInfo s localStorage w w1 r
        hapi, ensurePlayerId_of_missing now random playerInfo hmissing]
      rfl
    · rw [joinRoom_of_success joinRoomApi now random roomNumber playerInfo s localStorage w w1 r
        hapi, ensurePlayerId_of_missing now random playerInfo hmissing]
      rfl
    · rw [joinRoom_of_success joinRoomApi now random roomNumber playerInfo s localStorage w w1 r
        hapi, ensurePlayerId_of_missing now random playerInfo hmissing]
      exact (mapGet_persistCurrentPlayer _ _ _).1
    · rw [joinRoom_of_success joinRoomApi now random roomNumber playerInfo s localStorage w w1 r
        hapi, ensurePlayerId_of_missing now random playerInfo hmissing]
      refine ⟨(toString now ++ "_" ++ random).data, ?_⟩
      simp [generateUserId, String.append_assoc]
    · intro now2 random2 s2 localStorage2 w2 h
      rw [hinfo, hinfo, ensurePlayerId_of_missing now random playerInfo hmissing,
        ensurePlayerId_of_missing now2 random2 playerInfo hmissing] at h
      exact generateUserId_injective now now2 random random2 (Option.some.inj h)
  · intro id hid hne
    rw [joinRoom_of_success joinRoomApi now random roomNumber playerInfo s localStorage w w1 r
      hapi, ensurePlayerId_of_supplied now random playerInfo id hid hne]
    refine ⟨rfl, rfl, ?_, ?_⟩
    · simp [hid]
    · simp only [hid, Option.getD_some]
      exact (mapGet_persistCurrentPlayer _ _ _).1

/-- Witness for C16: the scenario `joinRoom("ABC123", playerInfo)` with
`playerName` Alice and no `playerId`, over the real `roomApi.joinRoom`: two
calls at different clock readings with different random parts against a
transport that answers with the room, and one call against a transport that
answers without a body. -/
theorem joinRoom_success_sets_current_player_witness :
    ((RoomStore.joinRoom (roomApi.joinRoom roomAnswer (fun _ n => n)) 1700 "k3j9x2m1q" "ABC123"
        alice freshRoomStore [] freshApiWorld).store.currentPlayerId = "player_1700_k3j9x2m1q" ∧
     (RoomStore.joinRoom (roomApi.joinRoom roomAnswer (fun _ n => n)) 1700 "k3j9x2m1q" "ABC123"
        alice freshRoomStore [] freshApiWorld).localStorage =
       [("currentPlayerId", "player_1700_k3j9x2m1q"), ("currentPlayerNickname", "Alice")] ∧
     (RoomStore.joinRoom (roomApi.joinRoom roomAnswer (fun _ n => n)) 1700 "k3j9x2m1q" "ABC123"
        alice freshRoomStore [] freshApiWorld).store.currentRoom = some "ABC123") ∧
    ((RoomStore.joinRoom (roomApi.joinRoom roomAnswer (fun _ n => n)) 1893 "7fq0zc4hd" "ABC123"
        alice freshRoomStore [] freshApiWorld).store.currentPlayerId = "player_1893_7fq0zc4hd" ∧
     (RoomStore.joinRoom (roomApi.joinRoom roomAnswer (fun _ n => n)) 1893 "7fq0zc4hd" "ABC123"
        alice freshRoomStore [] freshApiWorld).localStorage =
       [("currentPlayerId", "player_1893_7fq0zc4hd"), ("currentPlayerNickname", "Alice")]) ∧
    ((RoomStore.joinRoom (roomApi.joinRoom bodylessAnswer (fun _ n => n)) 1700 "k3j9x2m1q"
        "ABC123" alice freshRoomStore [] freshApiWorld).outcome = Except.ok none ∧
     (RoomStore.joinRoom (roomApi.joinRoom bodylessAnswer (fun _ n => n)) 1700 "k3j9x2m1q"
        "ABC123" alice freshRoomStore [] freshApiWorld).store.currentRoom = none ∧
     (RoomStore.joinRoom (roomApi.joinRoom bodylessAnswer (fun _ n => n)) 1700 "k3j9x2m1q"
        "ABC123" alice freshRoomStore [] freshApiWorld).store.currentPlayerId =
       "player_1700_k3j9x2m1q" ∧
     (RoomStore.joinRoom (roomApi.joinRoom bodylessAnswer (fun _ n => n)) 1700 "k3j9x2m1q"
        "ABC123" alice freshRoomStore [] freshApiWorld).localStorage =
       [("currentPlayerId", "player_1700_k3j9x2m1q"), ("currentPlayerNickname", "Alice")]) := by
  have h1 := joinRoom_success_sets_current_player (roomApi.joinRoom roomAnswer (fun _ n => n))
    1700 "k3j9x2m1q" "ABC123" alice freshRoomStore [] freshApiWorld
    (roomApi.joinRoom roomAnswer (fun _ n => n) "ABC123"
      (ensurePlayerId 1700 "k3j9x2m1q" alice) freshApiWorld).2
    { status := 200
      data := some { code := some 200, message := some "ok", data := some "ABC123" } } rfl
  have h2 := joinRoom_success_sets_current_player (roomApi.joinRoom roomAnswer (fun _ n => n))
    1893 "7fq0zc4hd" "ABC123" alice freshRoomStore [] freshApiWorld
    (roomApi.joinRoom roomAnswer (fun _ n => n) "ABC123"
      (ensurePlayerId 1893 "7fq0zc4hd" alice) freshApiWorld).2
    { status := 200
      data := some { code := some 200, message := some "ok", data := some "ABC123" } } rfl
  have h3 := joinRoom_success_sets_current_player
    (roomApi.joinRoom bodylessAnswer (fun _ n => n))
    1700 "k3j9x2m1q" "ABC123" alice freshRoomStore [] freshApiWorld
    (roomApi.joinRoom bodylessAnswer (fun _ n => n) "ABC123"
      (ensurePlayerId 1700 "k3j9x2m1q" alice) freshApiWorld).2
    { status := 204, data := none } rfl
  refine ⟨⟨?_, by decide, h1.2.1⟩, ⟨?_, by decide⟩, ⟨h3.1, h3.2.1, ?_, by decide⟩⟩
  · rw [(h1.2.2.2.2.2.1 (Or.inl rfl)).2.2.1]
    decide
  · rw [(h2.2.2.2.2.2.1 (Or.inl rfl)).2.2.1]
    decide
  · rw [(h3.2.2.2.2.2.1 (Or.inl rfl)).2.2.1]
    decide

theorem actionErrorText_cases {δ : Type} (e : JsError δ) (fallback : String) :
    (∀ m, (e.response.bind (fun r => r.data)).bind (fun d => d.message) = some m → m ≠ "" →
      actionErrorText e fallback = m) ∧
    (((e.response.bind (fun r => r.data)).bind (fun d => d.message) = none ∨
      (e.response.bind (fun r => r.data)).bind (fun d => d.message) = some "") →
      (e.message ≠ "" → actionErrorText e fallback = e.message) ∧
      (e.message = "" → actionErrorText e fallback = fallback)) := by
  constructor
  · intro m hm hne
    simp [actionErrorText, hm, orDefault, hne]
  · intro h
    constructor
    · intro hne
      rcases h with h | h <;> simp [actionErrorText, h, orDefault, hne]
    · intro he
      rcases h with h | h <;> simp [actionErrorText, h, orDefault, he]

/-- C19: when the backend call of `joinRoom` is rejected with error `e`, the
action rejects with `e` itself, records as `error` the server message of
`e.response.data` if there is one, else `e.message`, else the fixed text, sets
`isLoading` to false and leaves `currentRoom`, `currentPlayerId` and the local
storage as they were. A message that is missing or empty counts as absent. -/
theorem joinRoom_failure_records_error {σ δ : Type}
    (joinRoomApi : String → PlayerInfo → σ → Except (JsError δ) (HttpResponse δ) × σ)
    (now : Nat) (random : String) (roomNumber : String) (playerInfo : PlayerInfo)
    (s : RoomStore δ) (localStorage : List (String × String)) (w w1 : σ) (e : JsError δ)
    (hapi : joinRoomApi roomNumber (ensurePlayerId now random playerInfo) w =
      (Except.error e, w1)) :
    (RoomStore.joinRoom joinRoomApi now random roomNumber playerInfo s localStorage w).outcome =
      Except.error e ∧
    (RoomStore.joinRoom joinRoomApi now random roomNumber playerInfo s localStorage
      w).store.error = some (actionErrorText e "加入房间失败") ∧
    (RoomStore.joinRoom joinRoomApi now random roomNumber playerInfo s localStorage
      w).store.isLoading = false ∧
    (RoomStore.joinRoom joinRoomApi now random roomNumber playerInfo s localStorage
      w).store.currentRoom = s.currentRoom ∧
    (RoomStore.joinRoom joinRoomApi now random roomNumber playerInfo s localStorage
      w).store.currentPlayerId = s.currentPlayerId ∧
    (RoomStore.joinRoom joinRoomApi now random roomNumber playerInfo s localStorage
      w).localStorage = localStorage ∧
    (∀ m, (e.response.bind (fun r => r.data)).bind (fun d => d.message) = some m → m ≠ "" →
      actionErrorText e "加入房间失败" = m) ∧
    (((e.response.bind (fun r => r.data)).bind (fun d => d.message) = none ∨
      (e.response.bind (fun r => r.data)).bind (fun d => d.message) = some "") →
      (e.message ≠ "" → actionErrorText e "加入房间失败" = e.message) ∧
      (e.message = "" → actionErrorText e "加入房间失败" = "加入房间失败")) := by
  have hrun : RoomStore.joinRoom joinRoomApi now random roomNumber playerInfo s localStorage w =
      { outcome := Except.error e
        store := { s with error := some (actionErrorText e "加入房间失败"), isLoading := false }
        localStorage := localStorage
        playerInfo := ensurePlayerId now random playerInfo
        requested := [(roomNumber, ensurePlayerId now random playerInfo)]
        world := w1 } := by
    simp only [RoomStore.joinRoom, hapi]
  rw [hrun]
  exact ⟨rfl, rfl, rfl, rfl, rfl, rfl, (actionErrorText_cases e _).1, (actionErrorText_cases e _).2⟩

/-- Witness for C19: the backend rejects with the HTTP 400 error `badRequest`
while a room and a player are current. -/
theorem joinRoom_failure_records_error_witness :
    (RoomStore.joinRoom (fun _ _ n => (Except.error badRequest, n + 1)) 1700 "k3j9x2m1q" "ABC123"
        alice { currentRoom := some (), roomList := [], isLoading := false, error := none
                wsConnection := none, currentPlayerId := "p1" }
        [("currentPlayerId", "p1")] 0).store.error = some "房间已满" ∧
    (RoomStore.joinRoom (fun _ _ n => (Except.error badRequest, n + 1)) 1700 "k3j9x2m1q" "ABC123"
        alice { currentRoom := some (), roomList := [], isLoading := false, error := none
                wsConnection := none, currentPlayerId := "p1" }
        [("currentPlayerId", "p1")] 0).store.currentPlayerId = "p1" ∧
    (RoomStore.joinRoom (fun _ _ n => (Except.error badRequest, n + 1)) 1700 "k3j9x2m1q" "ABC123"
        alice { currentRoom := some (), roomList := [], isLoading := false, error := none
                wsConnection := none, currentPlayerId := "p1" }
        [("currentPlayerId", "p1")] 0).localStorage = [("currentPlayerId", "p1")] := by
  have h := joinRoom_failure_records_error (fun _ _ n => (Except.error badRequest, n + 1))
    1700 "k3j9x2m1q" "ABC123" alice
    { currentRoom := some (), roomList := [], isLoading := false, error := none
      wsConnection := none, currentPlayerId := "p1" }
    [("currentPlayerId", "p1")] 0 1 badRequest rfl
  refine ⟨?_, h.2.2.2.2.1, h.2.2.2.2.2.1⟩
  rw [h.2.1]
  decide

/-! ## Theorems: termination of the retry wrapper -/

theorem invocations_cons_invoke_wait (delay : Nat) (rest : List RetryEvent) :
    invocations (RetryEvent.invoke :: RetryEvent.wait delay :: rest) = invocations rest + 1 := by
  have hne : RetryEvent.invoke ≠ RetryEvent.wait delay := fun hc => by cases hc
  simp only [invocations]
  rw [List.count_cons_self, List.count_cons_of_ne hne]

theorem retryRequest_outcome_is_last_attempt {σ δ α : Type}
    (fn : σ → Except (JsError δ) α × σ) (setTimeout : Nat → σ → σ) (retries : Nat) :
    ∀ (delay : Nat) (w : σ),
      1 ≤ invocations (retryRequest fn setTimeout retries delay w).events ∧
      (retryRequest fn setTimeout retries delay w).outcome =
        attemptResult fn setTimeout
          (invocations (retryRequest fn setTimeout retries delay w).events - 1) delay w ∧
      (retryRequest fn setTimeout retries delay w).events =
        backoffEvents delay (invocations (retryRequest fn setTimeout retries delay w).events - 1) := by
  induction retries with
  | zero =>
    intro delay w
    rcases h : fn w with ⟨res, w1⟩
    cases res with
    | ok v =>
      rw [retryRequest_ok fn setTimeout 0 delay w w1 v h]
      simp [invocations, attemptResult, attemptWorld, h, backoffEvents]
    | error e =>
      rw [retryRequest_exhausted fn setTimeout delay w w1 e h]
      simp [invocations, attemptResult, attemptWorld, h, backoffEvents]
  | succ r ih =>
    intro delay w
    rcases h : fn w with ⟨res, w1⟩
    cases res with
    | ok v =>
      rw [retryRequest_ok fn setTimeout (r + 1) delay w w1 v h]
      simp [invocations, attemptResult, attemptWorld, h, backoffEvents]
    | error e =>
      cases hs : shouldRetry e with
      | false =>
        rw [retryRequest_give_up fn setTimeout (r + 1) delay w w1 e h hs]
        simp [invocations, attemptResult, attemptWorld, h, backoffEvents]
      | true =>
        rw [retryRequest_retry fn setTimeout r delay w w1 e h hs]
        obtain ⟨h1, h2, h3⟩ := ih (delay * 2) (setTimeout delay w1)
        simp only [invocations_cons_invoke_wait, Nat.add_sub_cancel]
        refine ⟨Nat.le_add_left _ _, ?_, ?_⟩
        · rw [h2]
          obtain ⟨k, hk⟩ : ∃ k, invocations
              (retryRequest fn setTimeout r (delay * 2) (setTimeout delay w1)).events = k + 1 :=
            ⟨_, (Nat.sub_add_cancel h1).symm⟩
          rw [hk]
          simp only [Nat.add_sub_cancel, attemptResult, attemptWorld, h]
        · obtain ⟨k, hk⟩ : ∃ k, invocations
              (retryRequest fn setTimeout r (delay * 2) (setTimeout delay w1)).events = k + 1 :=
            ⟨_, (Nat.sub_add_cancel h1).symm⟩
          rw [hk] at h3 ⊢
          simp only [Nat.add_sub_cancel] at h3
          rw [backoffEvents, ← h3]

/-- C21: `retryRequest` is a total function of a total `fn`: for every `retries`,
`delay` and world it settles after at least one and at most `retries + 1`
invocations of `fn`, and its outcome is the result of the last attempt made; so
when every attempt made fails, it rejects with the error of the last one. -/
theorem retryRequest_settles_within_bound {σ δ α : Type}
    (fn : σ → Except (JsError δ) α × σ) (setTimeout : Nat → σ → σ) (retries delay : Nat)
    (w : σ) :
    1 ≤ invocations (retryRequest fn setTimeout retries delay w).events ∧
    invocations (retryRequest fn setTimeout retries delay w).events ≤ retries + 1 ∧
    (retryRequest fn setTimeout retries delay w).outcome =
      attemptResult fn setTimeout
        (invocations (retryRequest fn setTimeout retries delay w).events - 1) delay w ∧
    ((∀ i, i < invocations (retryRequest fn setTimeout retries delay w).events →
        ∃ e, attemptResult fn setTimeout i delay w = Except.error e) →
      ∃ e, attemptResult fn setTimeout
          (invocations (retryRequest fn setTimeout retries delay w).events - 1) delay w =
            Except.error e ∧
        (retryRequest fn setTimeout retries delay w).outcome = Except.error e) := by
  obtain ⟨h1, h2, _⟩ := retryRequest_outcome_is_last_attempt fn setTimeout retries delay w
  refine ⟨h1, invocations_retryRequest_le fn setTimeout retries delay w, h2, ?_⟩
  intro hall
  obtain ⟨e, he⟩ := hall
    (invocations (retryRequest fn setTimeout retries delay w).events - 1) (by omega)
  exact ⟨e, he, by rw [h2, he]⟩

/-- Witness for C21: a call that always fails with status 503, with 2 retries:
three invocations, then the rejection with that error. -/
theorem retryRequest_settles_within_bound_witness :
    invocations (retryRequest (flaky 10 (statusError (δ := Unit) 503 "Service Unavailable") "ok")
        (fun _ w => w) 2 500 0).events = 3 ∧
    (retryRequest (flaky 10 (statusError (δ := Unit) 503 "Service Unavailable") "ok")
        (fun _ w => w) 2 500 0).outcome =
      Except.error (statusError 503 "Service Unavailable") := by
  have h := retryRequest_settles_within_bound
    (flaky 10 (statusError (δ := Unit) 503 "Service Unavailable") "ok") (fun _ w => w) 2 500 0
  refine ⟨by decide, ?_⟩
  rw [h.2.2.1]
  rfl

/-! ## Theorems: game store -/

theorem removeFirstWithId_cons (id : String) (t : GameTile) (rest : List GameTile) :
    removeFirstWithId id (t :: rest) =
      if t.id = id then rest else t :: removeFirstWithId id rest := by
  by_cases h : t.id = id
  · simp [removeFirstWithId, h]
  · simp only [removeFirstWithId, List.findIdx?_cons, h, decide_False, Bool.false_eq_true,
      if_false, Nat.zero_add, List.findIdx?_succ]
    cases List.findIdx? (fun t => decide (t.id = id)) rest with
    | none => rfl
    | some index => rfl

theorem removeFirstWithId_of_absent (id : String) (hand : List GameTile)
    (h : ∀ t ∈ hand, t.id ≠ id) : removeFirstWithId id hand = hand := by
  induction hand with
  | nil => rfl
  | cons t rest ih =>
    rw [removeFirstWithId_cons, if_neg (h t (List.mem_cons_self _ _)),
      ih (fun x hx => h x (List.mem_cons_of_mem _ hx))]

theorem removeFirstWithId_of_present (id : String) (hand : List GameTile)
    (h : ∃ t ∈ hand, t.id = id) :
    ∃ before t after, hand = before ++ t :: after ∧ t.id = id ∧
      (∀ x ∈ before, x.id ≠ id) ∧ removeFirstWithId id hand = before ++ after := by
  induction hand with
  | nil =>
    obtain ⟨t, ht, _⟩ := h
    cases ht
  | cons t rest ih =>
    by_cases hid : t.id = id
    · refine ⟨[], t, rest, rfl, hid, ?_, ?_⟩
      · intro x hx
        cases hx
      · rw [removeFirstWithId_cons, if_pos hid]
        rfl
    · have hrest : ∃ x ∈ rest, x.id = id := by
        obtain ⟨x, hx, hxid⟩ := h
        rcases List.mem_cons.1 hx with hx | hx
        · rw [hx] at hxid
          exact absurd hxid hid
        · exact ⟨x, hx, hxid⟩
      obtain ⟨before, u, after, hsplit, hu, hbefore, hremoved⟩ := ih hrest
      refine ⟨t :: before, u, after, by rw [hsplit]; rfl, hu, ?_, ?_⟩
      · intro x hx
        rcases List.mem_cons.1 hx with hx | hx
        · rw [hx]; exact hid
        · exact hbefore x hx
      · rw [removeFirstWithId_cons, if_neg hid, hremoved]
        rfl

/-- C22: in a game store where `canPlayTile` holds, an acknowledged
`playTile(tile)` for a tile whose id occurs in the hand removes exactly the
first hand tile with that id, keeps the other hand tiles in their order and
appends `tile` to the end of the discard pile, so the two sizes add up to what
they did; when `canPlayTile` is false, or the backend rejects the request, the
store, and with it hand and discard pile, is unchanged and the action rejects. -/
theorem playTile_moves_tile_to_discard {σ ρ δ : Type}
    (playTileApi : String → String → σ → Except (JsError δ) (HttpResponse δ) × σ)
    (now : Nat) (tile : GameTile) (s : GameStore ρ) (w : σ) :
    (∀ game r w1, canPlayTile s = true → s.currentGame = some game →
      playTileApi game.id tile.id w = (Except.ok r, w1) →
      (∃ t ∈ s.playerHand, t.id = tile.id) →
      ∃ before t after, s.playerHand = before ++ t :: after ∧ t.id = tile.id ∧
        (∀ x ∈ before, x.id ≠ tile.id) ∧
        (GameStore.playTile playTileApi now tile s w).store.playerHand = before ++ after ∧
        (GameStore.playTile playTileApi now tile s w).store.discardPile =
          s.discardPile ++ [tile] ∧
        (GameStore.playTile playTileApi now tile s w).store.playerHand.length +
            (GameStore.playTile playTileApi now tile s w).store.discardPile.length =
          s.playerHand.length + s.discardPile.length ∧
        (GameStore.playTile playTileApi now tile s w).outcome = Except.ok ()) ∧
    (canPlayTile s = false →
      (GameStore.playTile playTileApi now tile s w).store.playerHand = s.playerHand ∧
      (GameStore.playTile playTileApi now tile s w).store.discardPile = s.discardPile ∧
      (GameStore.playTile playTileApi now tile s w).requested = [] ∧
      (GameStore.playTile playTileApi now tile s w).outcome =
        Except.error (newError "当前不能出牌")) ∧
    (∀ game e w1, canPlayTile s = true → s.currentGame = some game →
      playTileApi game.id tile.id w = (Except.error e, w1) →
      (GameStore.playTile playTileApi now tile s w).store.playerHand = s.playerHand ∧
      (GameStore.playTile playTileApi now tile s w).store.discardPile = s.discardPile ∧
      (GameStore.playTile playTileApi now tile s w).outcome =
        Except.error (newError "出牌失败")) := by
  refine ⟨?_, ?_, ?_⟩
  · intro game r w1 hcan hgame hack hmem
    obtain ⟨before, t, after, hsplit, ht, hbefore, hremoved⟩ :=
      removeFirstWithId_of_present tile.id s.playerHand hmem
    refine ⟨before, t, after, hsplit, ht, hbefore, ?_⟩
    have hlen : (before ++ after).length + (s.discardPile ++ [tile]).length =
        s.playerHand.length + s.discardPile.length := by
      rw [hsplit]
      simp only [List.length_append, List.length_cons, List.length_nil]
      omega
    simp [GameStore.playTile, hcan, hgame, hack, hremoved]
    simpa using hlen
  · intro hcan
    simp [GameStore.playTile, hcan]
  · intro game e w1 hcan hgame hrej
    simp [GameStore.playTile, hcan, hgame, hrej]

/-- Witness for C22: the hand holds two tiles with id `t2`; the acknowledged
`playTile` removes the first of them and the played tile ends the discard
pile. -/
theorem playTile_moves_tile_to_discard_witness :
    (GameStore.playTile (gameApi.playTile acknowledge) 9 (bamboo "t2" "2") playingStore
        freshApiWorld).store.playerHand =
      [bamboo "t1" "1", bamboo "t3" "3", bamboo "t2" "9"] ∧
    (GameStore.playTile (gameApi.playTile acknowledge) 9 (bamboo "t2" "2") playingStore
        freshApiWorld).store.discardPile = [bamboo "t0" "5", bamboo "t2" "2"] := by
  obtain ⟨before, t, after, hsplit, _, hbefore, _, hdiscard, _, _⟩ :=
    (playTile_moves_tile_to_discard (gameApi.playTile acknowledge) 9 (bamboo "t2" "2")
      playingStore freshApiWorld).1 { id := "g1", status := "PLAYING", currentPlayer := 0 }
      { status := 200, data := none }
      (gameApi.playTile acknowledge "g1" "t2" freshApiWorld).2 (by decide) rfl rfl
      ⟨bamboo "t2" "2", by decide, rfl⟩
  exact ⟨by decide, hdiscard⟩

/-! ## Theorems: roster of the room store -/

theorem rosterInvariant_iff (room : Room) :
    rosterInvariant room = true ↔
      ∃ players, room.players = some players ∧ (players.map (fun p => p.id)).Nodup ∧
        room.currentPlayers = players.length := by
  unfold rosterInvariant
  cases h : room.players with
  | none => simp
  | some players => simp

theorem addPlayer_of_present (player : Player) (s : RoomStore Room) (room : Room)
    (players : List Player) (hroom : s.currentRoom = some room)
    (hplayers : room.players = some players) (h : ∃ q ∈ players, q.id = player.id) :
    addPlayer player s = s := by
  obtain ⟨q, hq, hid⟩ := h
  have hfind : (players.find? (fun p => decide (p.id = player.id))).isSome = true := by
    rw [List.find?_isSome]
    exact ⟨q, hq, by simp [hid]⟩
  obtain ⟨found, hfound⟩ := Option.isSome_iff_exists.1 hfind
  simp only [addPlayer, hroom, hplayers, hfound]

theorem addPlayer_of_absent (player : Player) (s : RoomStore Room) (room : Room)
    (players : List Player) (hroom : s.currentRoom = some room)
    (hplayers : room.players = some players) (h : ∀ q ∈ players, q.id ≠ player.id) :
    addPlayer player s =
      { s with
        currentRoom :=
          some { room with players := some (players ++ [player])
                           currentPlayers := (players ++ [player]).length } } := by
  have hfind : players.find? (fun p => decide (p.id = player.id)) = none := by
    rw [List.find?_eq_none]
    intro q hq
    simp [h q hq]
  simp only [addPlayer, hroom, hplayers, hfind]

theorem removePlayer_of_players (playerId : String) (s : RoomStore Room) (room : Room)
    (players : List Player) (hroom : s.currentRoom = some room)
    (hplayers : room.players = some players) :
    removePlayer playerId s =
      { s with
        currentRoom :=
          some { room with
                 players := some (players.filter (fun p => decide (p.id ≠ playerId)))
                 currentPlayers :=
                   (players.filter (fun p => decide (p.id ≠ playerId))).length } } := by
  simp only [removePlayer, hroom, hplayers]

/-- C23: for a current room that satisfies the roster invariant (the player ids
are pairwise distinct and `currentPlayers` is the length of `players`), the
room after `addPlayer(p)` and the room after `removePlayer(id)` satisfy it too.
`addPlayer(p)` changes nothing when a player with `p.id` is present, and
otherwise appends `p`; after `removePlayer(id)` the player list is the former
one without the players of that id, the others in their former order. -/
theorem roster_invariant_preserved (s : RoomStore Room) (room : Room) (players : List Player)
    (hroom : s.currentRoom = some room) (hplayers : room.players = some players)
    (hinv : rosterInvariant room = true) :
    (∀ p, ∃ room1, (addPlayer p s).currentRoom = some room1 ∧ rosterInvariant room1 = true) ∧
    (∀ p, (∃ q ∈ players, q.id = p.id) → addPlayer p s = s) ∧
    (∀ p, (∀ q ∈ players, q.id ≠ p.id) →
      (addPlayer p s).currentRoom =
        some { room with players := some (players ++ [p])
                         currentPlayers := players.length + 1 }) ∧
    (∀ id, ∃ room1, (removePlayer id s).currentRoom = some room1 ∧
      rosterInvariant room1 = true ∧
      room1.players = some (players.filter (fun q => decide (q.id ≠ id))) ∧
      (∀ q ∈ players.filter (fun q => decide (q.id ≠ id)), q.id ≠ id) ∧
      (∀ q ∈ players, q.id ≠ id → q ∈ players.filter (fun q => decide (q.id ≠ id))) ∧
      (players.filter (fun q => decide (q.id ≠ id))).Sublist players) := by
  obtain ⟨players0, hp0, hnodup, hcount⟩ := (rosterInvariant_iff room).1 hinv
  rw [hplayers] at hp0
  cases hp0
  refine ⟨?_, ?_, ?_, ?_⟩
  · intro p
    by_cases hpresent : ∃ q ∈ players, q.id = p.id
    · rw [addPlayer_of_present p s room players hroom hplayers hpresent]
      exact ⟨room, hroom, hinv⟩
    · have habsent : ∀ q ∈ players, q.id ≠ p.id := fun q hq hid => hpresent ⟨q, hq, hid⟩
      rw [addPlayer_of_absent p s room players hroom hplayers habsent]
      refine ⟨_, rfl, ?_⟩
      rw [rosterInvariant_iff]
      refine ⟨players ++ [p], rfl, ?_, rfl⟩
      rw [List.map_append, List.nodup_append]
      refine ⟨hnodup, List.nodup_singleton _, ?_⟩
      intro a ha hb
      obtain ⟨q, hq, hqa⟩ := List.mem_map.1 ha
      simp only [List.map_cons, List.map_nil, List.mem_singleton] at hb
      exact habsent q hq (hqa.trans hb)
  · intro p hpresent
    exact addPlayer_of_present p s room players hroom hplayers hpresent
  · intro p habsent
    rw [addPlayer_of_absent p s room players hroom hplayers habsent]
    simp
  · intro id
    rw [removePlayer_of_players id s room players hroom hplayers]
    refine ⟨_, rfl, ?_, rfl, ?_, ?_, List.filter_sublist players⟩
    · rw [rosterInvariant_iff]
      refine ⟨_, rfl, ?_, rfl⟩
      exact hnodup.sublist ((List.filter_sublist players).map _)
    · intro q hq
      simpa using (List.mem_filter.1 hq).2
    · intro q hq hid
      exact List.mem_filter.2 ⟨hq, by simp [hid]⟩

/-- Witness for C23: at a table of three, a fourth player is added, a player
whose id is already present changes nothing, and the second player is removed. -/
theorem roster_invariant_preserved_witness :
    ((addPlayer (seat "p4" "Dan" 4) tableOfThree).currentRoom.bind (fun r => r.players)).map
        (fun ps => ps.map (fun p => p.id)) = some ["p1", "p2", "p3", "p4"] ∧
    (addPlayer (seat "p2" "Dan" 4) tableOfThree).currentRoom = tableOfThree.currentRoom ∧
    ((removePlayer "p2" tableOfThree).currentRoom.bind (fun r => r.players)).map
        (fun ps => ps.map (fun p => p.id)) = some ["p1", "p3"] := by
  have h := roster_invariant_preserved tableOfThree
    { id := "r1", roomNumber := "ABC123", roomName := "friends", creatorId := "p1"
      maxPlayers := 4, currentPlayers := 3, roomStatus := "WAITING"
      players := some [seat "p1" "Alice" 1, seat "p2" "Bob" 2, seat "p3" "Carol" 3] }
    [seat "p1" "Alice" 1, seat "p2" "Bob" 2, seat "p3" "Carol" 3] rfl rfl (by decide)
  refine ⟨by decide, ?_, by decide⟩
  rw [h.2.1 (seat "p2" "Dan" 4) ⟨seat "p2" "Bob" 2, by decide, rfl⟩]

end Mahjong
